import Mathlib

/-!
Verification development for the `web-transcriber` job orchestrator
(`src/web-transcriber/src/server/transcriber.ts`).

The TypeScript source is shallowly embedded: every effectful step
(subprocess runs, HTTP transcription polling, filesystem checks) is made
explicit by passing an environment record that records the outcome the
external world would deliver, and every observable action (job status
updates, progress updates, file writes, sleeps, strategy invocations) is
collected into an event trace.  Definitions follow the source line by
line; line numbers cited in comments refer to `transcriber.ts`.
-/

namespace WebTranscriber

/-! ## Job data model (transcriber.ts lines 13-27) -/

/-- The `status` field of `TranscriptionJob` (line 16). -/
inductive Status where
  | pending
  | downloading
  | transcribing
  | completed
  | error
deriving DecidableEq, Repr

/-- The two progress counters of `TranscriptionJob.progress` (lines 17-20):
`download` and `transcription`. -/
inductive ProgKind where
  | download
  | transcription
deriving DecidableEq, Repr

/-- One AssemblyAI word with timing, as consumed by `formatTimestamps`
(lines 1348-1358).  `start`/`stop` are the millisecond offsets
(`word.start` / `word.end` in the source). -/
structure TWord where
  start : Nat
  stop : Nat
  text : String
deriving DecidableEq, Repr

/-- One speaker-attributed utterance, as consumed by `formatUtterances`
(lines 1319-1346).  Both fields are duck-typed in the source and may be
absent, hence `Option`. -/
structure Utterance where
  speaker : Option String
  text : Option String
deriving DecidableEq, Repr

/-- The transcript payload returned by the AssemblyAI polling loop and
consumed by `saveTranscript` (lines 1253-1317). -/
structure Transcript where
  utterances : Option (List Utterance)
  words : Option (List TWord)
  text : String
  audio_duration : Nat
deriving DecidableEq, Repr

/-- A `TranscriptionJob` record (lines 13-27).  `createdAt` is the
creation time in epoch milliseconds. -/
structure Job where
  id : String
  videoUrl : String
  status : Status
  progressDownload : Rat
  progressTranscription : Rat
  result : Option (String × String)
  error : Option String
  createdAt : Nat
deriving DecidableEq, Repr

/-- Observable actions performed by the orchestrator while a job runs:
`status`/`progress` are the `updateJobStatus` / `updateJobProgress` calls
(each of which broadcasts over socket.io), `call` records the invocation
of a named collaborator (an acquisition strategy or a transcription-client
step), `write` is a `fs.writeFileSync`, and `wait` is a poll-loop sleep in
milliseconds. -/
inductive Event where
  | status (s : Status) (err : Option String) (result : Option (String × String))
  | progress (k : ProgKind) (percent : Rat)
  | call (name : String)
  | write (path : String) (content : String)
  | wait (ms : Nat)
deriving DecidableEq, Repr

/-- Outcome of running the background task (or one of its stages):
the job either finishes the stage, records a failure message, or is still
inside the unbounded polling loop after consuming every modelled poll
response. -/
inductive RunResult where
  | success
  | failure (msg : String)
  | running
deriving DecidableEq, Repr

/-! ## URL validation (transcriber.ts line 89)

`startTranscription` validates with
`/^(https?:\/\/)?(www\.)?(youtube\.com|youtu\.be)\/.+$/`.
The regex is anchored at both ends, the three leading groups are optional
literals whose first characters are mutually exclusive (so the greedy
match never needs to backtrack), and `.` does not match JavaScript line
terminators. -/

/-- Characters matched by an unescaped `.` in a JavaScript regex without
the `s` flag: everything except `\n`, `\r`, U+2028 and U+2029. -/
def jsDot (c : Char) : Bool :=
  c ≠ '\n' && c ≠ '\r' && c.val ≠ 0x2028 && c.val ≠ 0x2029

/-- Strip an exact literal from the front of a character list; `none` if
the list does not start with the literal. -/
def stripLit : List Char → List Char → Option (List Char)
  | [], l => some l
  | _ :: _, [] => none
  | c :: cs, c' :: l' => if c' = c then stripLit cs l' else none

/-- The YouTube-URL validation regex of `startTranscription` (line 89):
`^(https?:\/\/)?(www\.)?(youtube\.com|youtu\.be)\/.+$`. -/
def validYoutubeUrl (url : String) : Bool :=
  let l := url.toList
  let l1 :=
    match stripLit "https://".toList l with
    | some r => r
    | none =>
      match stripLit "http://".toList l with
      | some r => r
      | none => l
  let l2 :=
    match stripLit "www.".toList l1 with
    | some r => r
    | none => l1
  let l3 :=
    match stripLit "youtube.com/".toList l2 with
    | some r => some r
    | none => stripLit "youtu.be/".toList l2
  match l3 with
  | none => false
  | some rest => !rest.isEmpty && rest.all jsDot

/-! ## Video-id extraction (transcriber.ts lines 209-213)

`extractVideoId` matches
`/^.*((youtu.be\/)|(v\/)|(\/u\/\w\/)|(embed\/)|(watch\?))\??v?=?([^#&?]*).*/`
and returns capture group 7 when it is exactly 11 characters long.

The leading `^.*` is greedy, so the marker group matches at the *last*
position (reachable without `.` crossing a line terminator) where one of
the five alternatives matches; since everything after the marker
(`\??v?=?([^#&?]*).*`) can always match, no further backtracking occurs.
The five alternatives start with the pairwise-distinct characters
`y v / e w`, so alternative order is immaterial at a given position. -/

/-- JavaScript `\w`: `[A-Za-z0-9_]`. -/
def isWordChar (c : Char) : Bool :=
  ('a' ≤ c && c ≤ 'z') || ('A' ≤ c && c ≤ 'Z') || ('0' ≤ c && c ≤ '9') || c = '_'

/-- Length of the marker-group match at the head of the list, trying the
alternatives `(youtu.be\/) (v\/) (\/u\/\w\/) (embed\/) (watch\?)` in
order.  The `.` in `youtu.be` is an unescaped wildcard. -/
def markerLen : List Char → Option Nat
  | 'y' :: 'o' :: 'u' :: 't' :: 'u' :: c :: 'b' :: 'e' :: '/' :: _ =>
    if jsDot c then some 9 else none
  | 'v' :: '/' :: _ => some 2
  | '/' :: 'u' :: '/' :: c :: '/' :: _ => if isWordChar c then some 5 else none
  | 'e' :: 'm' :: 'b' :: 'e' :: 'd' :: '/' :: _ => some 6
  | 'w' :: 'a' :: 't' :: 'c' :: 'h' :: '?' :: _ => some 6
  | _ => none

/-- Suffix following the last marker match, where the greedy `^.*` may
only skip `jsDot` characters to reach the marker. -/
def afterLastMarker : List Char → Option (List Char)
  | [] => none
  | c :: t =>
    match (if jsDot c then afterLastMarker t else none) with
    | some r => some r
    | none => (markerLen (c :: t)).map (fun n => (c :: t).drop n)

/-- Consume one optional literal character (the greedy `\??`, `v?`, `=?`
of the regex; the tail of the pattern never fails, so greedy consumption
is final). -/
def consumeOpt (c : Char) : List Char → List Char
  | [] => []
  | c' :: t => if c' = c then t else c' :: t

/-- Capture group 7, `([^#&?]*)`, taken greedily after `\??v?=?`. -/
def captureGroup7 (l : List Char) : List Char :=
  (consumeOpt '=' (consumeOpt 'v' (consumeOpt '?' l))).takeWhile
    (fun c => c ≠ '#' && c ≠ '&' && c ≠ '?')

/-- `Transcriber.extractVideoId` (lines 209-213): the regex capture is
returned only when it is exactly 11 characters long, otherwise `null`. -/
def extractVideoId (url : String) : Option String :=
  match afterLastMarker url.toList with
  | none => none
  | some rest =>
    let cap := captureGroup7 rest
    if cap.length = 11 then some (String.mk cap) else none

example : validYoutubeUrl "https://www.youtube.com/watch?v=dQw4w9WgXcQ" = true := by decide
example : validYoutubeUrl "https://youtu.be/dQw4w9WgXcQ" = true := by decide
example : validYoutubeUrl "https://example.com/watch?v=dQw4w9WgXcQ" = false := by decide
example : validYoutubeUrl "youtube.com/" = false := by decide
example : extractVideoId "https://www.youtube.com/watch?v=dQw4w9WgXcQ" = some "dQw4w9WgXcQ" := by decide
example : extractVideoId "https://youtu.be/dQw4w9WgXcQ" = some "dQw4w9WgXcQ" := by decide
example : extractVideoId "https://www.youtube.com/watch?v=abc" = none := by decide
example : validYoutubeUrl "https://www.youtube.com/watch?v=abc" = true := by decide

/-! ## Acquisition strategies (transcriber.ts lines 215-1130)

`downloadVideo` (lines 215-266) tries, strictly in order:
1. `downloadSimple` (lines 269-372) — plain `yt-dlp`, no cookies;
2. `downloadWithChromeCookies` (lines 377-585) — headless Chrome harvests
   fresh cookies, then `yt-dlp --cookies`;
3. `downloadWithYtDlp` (lines 587-632) — `yt-dlp --cookies-from-browser`
   iterated over installed browsers (`tryDownloadWithBrowsers`,
   lines 634-730), falling through to a no-cookie attempt with relaxed
   options (`tryFinalDownload`, lines 732-836) and then to
   `downloadWithYtDlpAlternative` (lines 875-986);
4. `downloadWithYtdlCore` (lines 988-1130) — the `ytdl-core` library.

Each `yt-dlp` subprocess run is abstracted by the data the source
branches on: the progress percentages parsed from its stdout by
`/\[download\]\s+(\d+\.?\d*)%/`, the close event's exit code (or the
process `error` event where the source installs a handler for it), and
whether the expected output file exists afterwards. -/

/-- Environment of one `yt-dlp` subprocess run: `tokens` are the
percentages parsed from stdout chunks in order; `procOutcome` is
`.ok code` for a `close` event with that exit code and `.error m` for a
process `error` event with message `m`; `fileExists` is the
`fs.existsSync(outputPath)` check made after a zero exit code. -/
structure ProcRun where
  tokens : List Rat
  procOutcome : Except String Int
  fileExists : Bool
deriving Repr

/-- Progress events for the stdout percentage tokens of one run
(each token triggers `updateJobProgress(jobId, 'download', percent)`). -/
def tokenEvents (r : ProcRun) : List Event :=
  r.tokens.map (Event.progress .download)

/-- Environment of the first, no-cookie `yt-dlp` run.  `downloadSimple`
installs only a `close` handler (no process `error` handler), so this
environment carries the close event's exit code directly: the model
covers runs in which the subprocess spawns and closes. -/
structure SimpleRun where
  tokens : List Rat
  exitCode : Int
  fileExists : Bool
deriving DecidableEq, Repr

/-- Progress events for the stdout percentage tokens of the simple run. -/
def simpleTokenEvents (r : SimpleRun) : List Event :=
  r.tokens.map (Event.progress .download)

/-- `Transcriber.downloadSimple` (lines 269-372).  It re-extracts the
video id (rejecting when absent), spawns `yt-dlp`, forwards stdout
progress, and on close: exit code 0 plus an existing output file emits
progress 100 and resolves; a missing file or nonzero code rejects. -/
def downloadSimple (url audioPath : String) (r : SimpleRun) :
    List Event × Except String Unit :=
  match extractVideoId url with
  | none => ([], .error ("Could not extract video ID from URL: " ++ url))
  | some _ =>
    if r.exitCode = 0 then
      if r.fileExists then
        (simpleTokenEvents r ++ [Event.progress .download 100], .ok ())
      else
        (simpleTokenEvents r, .error ("Arquivo de áudio não foi criado: " ++ audioPath))
    else
      (simpleTokenEvents r, .error ("Processo yt-dlp encerrou com código " ++ toString r.exitCode))

/-- Environment of the fresh-cookie strategy: `setupError` is a throw
anywhere in the puppeteer phase (browser launch, navigation, cookie
serialization); `dlp` is the subsequent `yt-dlp --cookies` run. -/
structure ChromeEnv where
  setupError : Option String
  dlp : ProcRun
deriving Repr

/-- `Transcriber.downloadWithChromeCookies` (lines 377-585).  A failure
in the puppeteer phase rejects (after releasing the browser and cookie
file, lines 563-583); otherwise the strategy re-extracts the video id,
runs `yt-dlp` with the harvested cookies, and settles like the simple
strategy except that a process `error` event is handled and rejects
(lines 558-561). -/
def downloadWithChromeCookies (url audioPath : String) (env : ChromeEnv) :
    List Event × Except String Unit :=
  match env.setupError with
  | some m => ([], .error m)
  | none =>
    match extractVideoId url with
    | none => ([], .error ("Could not extract video ID from URL: " ++ url))
    | some _ =>
      match env.dlp.procOutcome with
      | .error m => (tokenEvents env.dlp, .error ("yt-dlp error with Chrome cookies: " ++ m))
      | .ok code =>
        if code = 0 then
          if env.dlp.fileExists then
            (tokenEvents env.dlp ++ [Event.progress .download 100], .ok ())
          else
            (tokenEvents env.dlp, .error ("Audio file not created: " ++ audioPath))
        else
          (tokenEvents env.dlp,
           .error ("yt-dlp process with Chrome cookies exited with code " ++ toString code))

/-- Browser list of `downloadWithYtDlp` (lines 609-610): platform
dependent. -/
def browserList (isWindows : Bool) : List String :=
  if isWindows then ["chrome", "edge", "firefox", "opera"] else ["chrome", "firefox", "opera"]

/-- Environment of the installed-browser strategy: one `ProcRun` per
browser-cookie attempt (indexed in browser order), one for the no-cookie
final attempt and one for the alternative last resort. -/
structure YtDlpEnv where
  isWindows : Bool
  attempt : Nat → ProcRun
  final : ProcRun
  alt : ProcRun

/-- `Transcriber.downloadWithYtDlpAlternative` (lines 875-986): sets the
job status to `downloading` (line 878), runs `yt-dlp` with bypass
options, and settles on its own (no further fallback). -/
def downloadWithYtDlpAlternative (audioPath : String) (r : ProcRun) :
    List Event × Except String Unit :=
  let st := Event.status .downloading none none
  match r.procOutcome with
  | .error m => (st :: tokenEvents r, .error ("yt-dlp alternative error: " ++ m))
  | .ok code =>
    if code = 0 then
      if r.fileExists then
        (st :: tokenEvents r ++ [Event.progress .download 100], .ok ())
      else
        (st :: tokenEvents r, .error ("Audio file not created: " ++ audioPath))
    else
      (st :: tokenEvents r,
       .error ("yt-dlp alternative process exited with code " ++ toString code))

/-- `Transcriber.tryFinalDownload` (lines 732-836): the no-cookie attempt
with relaxed options; every failure mode (close code 0 without a file,
nonzero close code, process `error` event) falls through to
`downloadWithYtDlpAlternative` (lines 804-827). -/
def tryFinalDownload (audioPath : String) (env : YtDlpEnv) :
    List Event × Except String Unit :=
  match env.final.procOutcome with
  | .error _ =>
    (tokenEvents env.final ++ (downloadWithYtDlpAlternative audioPath env.alt).1,
      (downloadWithYtDlpAlternative audioPath env.alt).2)
  | .ok code =>
    if code = 0 then
      if env.final.fileExists then
        (tokenEvents env.final ++ [Event.progress .download 100], .ok ())
      else
        (tokenEvents env.final ++ (downloadWithYtDlpAlternative audioPath env.alt).1,
          (downloadWithYtDlpAlternative audioPath env.alt).2)
    else
      (tokenEvents env.final ++ (downloadWithYtDlpAlternative audioPath env.alt).1,
        (downloadWithYtDlpAlternative audioPath env.alt).2)

/-- `Transcriber.tryDownloadWithBrowsers` (lines 634-730): for each
browser in order, run `yt-dlp --cookies-from-browser`; a zero exit code
with an existing file succeeds; a missing file or nonzero code moves to
the next browser; a process `error` event rejects the whole strategy
(lines 722-725); exhausting the browser list falls through to
`tryFinalDownload`. -/
def tryDownloadWithBrowsers (audioPath : String) (env : YtDlpEnv) (i : Nat) :
    List String → List Event × Except String Unit
  | [] => tryFinalDownload audioPath env
  | _b :: rest =>
    match (env.attempt i).procOutcome with
    | .error m => (tokenEvents (env.attempt i), .error ("yt-dlp error: " ++ m))
    | .ok code =>
      if code = 0 then
        if (env.attempt i).fileExists then
          (tokenEvents (env.attempt i) ++ [Event.progress .download 100], .ok ())
        else
          (tokenEvents (env.attempt i) ++ (tryDownloadWithBrowsers audioPath env (i + 1) rest).1,
            (tryDownloadWithBrowsers audioPath env (i + 1) rest).2)
      else
        (tokenEvents (env.attempt i) ++ (tryDownloadWithBrowsers audioPath env (i + 1) rest).1,
          (tryDownloadWithBrowsers audioPath env (i + 1) rest).2)

/-- `Transcriber.downloadWithYtDlp` (lines 587-632): sets the job status
to `downloading` (line 590) and starts the browser iteration. -/
def downloadWithYtDlp (audioPath : String) (env : YtDlpEnv) :
    List Event × Except String Unit :=
  let (evs, res) := tryDownloadWithBrowsers audioPath env 0 (browserList env.isWindows)
  (Event.status .downloading none none :: evs, res)

/-- Terminal event of the `ytdl-core` strategy's stream plumbing:
the output stream's `finish`, a download-stream `error`, or an
output-file `error`. -/
inductive CoreTerminal where
  | finish
  | streamErr (m : String)
  | writeErr (m : String)
deriving DecidableEq, Repr

/-- Environment of the `ytdl-core` strategy: `infoError` is a
`ytdl.getInfo` rejection; `hasAudioFormat` is whether any `audioonly`
format exists; `contentLength` is `bestAudio.contentLength` (absent =
`none`); `chunks` are the `(downloaded, total)` pairs of the stream's
`progress` events. -/
structure CoreEnv where
  infoError : Option String
  hasAudioFormat : Bool
  contentLength : Option Nat
  chunks : List (Nat × Nat)
  terminal : CoreTerminal
  fileExists : Bool
deriving DecidableEq, Repr

/-- Percentages emitted by the `ytdl-core` progress handler
(lines 1058-1076): `totalBytes` is updated from a truthy `total`,
`percent = Math.floor(downloaded / totalBytes * 100)` (0 when
`totalBytes` is 0), and an update fires only when the percentage strictly
increases. -/
def corePercents : List (Nat × Nat) → Nat → Nat → List Nat
  | [], _, _ => []
  | (downloaded, total) :: rest, totalBytes, lastPercent =>
    let tb := if total ≠ 0 then total else totalBytes
    let percent := if tb > 0 then downloaded * 100 / tb else 0
    if percent > lastPercent then percent :: corePercents rest tb percent
    else corePercents rest tb lastPercent

/-- `Transcriber.downloadWithYtdlCore` (lines 988-1130): sets the job
status to `downloading` (line 991); a `getInfo` rejection — or the
`Nenhum formato de áudio disponível` throw inside the `then` callback,
which the same `.catch` at line 1120 wraps — rejects; otherwise the
stream runs, progress events fire per `corePercents`, and the strategy
settles on the stream/file terminal event. -/
def downloadWithYtdlCore (audioPath : String) (env : CoreEnv) :
    List Event × Except String Unit :=
  let st := Event.status .downloading none none
  match env.infoError with
  | some m => ([st], .error ("Erro ao obter informações do vídeo: " ++ m))
  | none =>
    if !env.hasAudioFormat then
      ([st], .error ("Erro ao obter informações do vídeo: Nenhum formato de áudio disponível"))
    else
      let prog := (corePercents env.chunks (env.contentLength.getD 0) 0).map
        (fun p => Event.progress .download (Nat.cast p))
      match env.terminal with
      | .streamErr m => (st :: prog, .error ("Erro no download: " ++ m))
      | .writeErr m => (st :: prog, .error ("Erro ao salvar arquivo: " ++ m))
      | .finish =>
        if env.fileExists then
          (st :: prog ++ [Event.progress .download 100], .ok ())
        else
          (st :: prog, .error ("Arquivo de áudio não criado: " ++ audioPath))

/-- Environment of the whole acquisition chain. -/
structure DownloadEnv where
  simple : SimpleRun
  chrome : ChromeEnv
  ytdlp : YtDlpEnv
  core : CoreEnv

/-- The fixed chain order (names of the four strategy methods). -/
def strategyNames : List String :=
  ["downloadSimple", "downloadWithChromeCookies", "downloadWithYtDlp", "downloadWithYtdlCore"]

/-- `Transcriber.downloadVideo` (lines 215-266): the four strategies are
tried strictly in order inside nested `try`/`catch` blocks; each failure
is swallowed (`Não propagar o erro`) and the next strategy runs; only a
failure of the last strategy propagates, wrapped as
`Não foi possível baixar o vídeo após múltiplas tentativas:` plus the
last error's message. -/
def downloadVideo (url audioPath : String) (env : DownloadEnv) :
    List Event × Except String Unit :=
  let (e1, r1) := downloadSimple url audioPath env.simple
  match r1 with
  | .ok _ => (Event.call "downloadSimple" :: e1, .ok ())
  | .error _ =>
    let (e2, r2) := downloadWithChromeCookies url audioPath env.chrome
    match r2 with
    | .ok _ =>
      ((Event.call "downloadSimple" :: e1) ++ (Event.call "downloadWithChromeCookies" :: e2),
        .ok ())
    | .error _ =>
      let (e3, r3) := downloadWithYtDlp audioPath env.ytdlp
      match r3 with
      | .ok _ =>
        ((Event.call "downloadSimple" :: e1) ++ (Event.call "downloadWithChromeCookies" :: e2) ++
          (Event.call "downloadWithYtDlp" :: e3), .ok ())
      | .error _ =>
        let (e4, r4) := downloadWithYtdlCore audioPath env.core
        match r4 with
        | .ok _ =>
          ((Event.call "downloadSimple" :: e1) ++
            (Event.call "downloadWithChromeCookies" :: e2) ++
            (Event.call "downloadWithYtDlp" :: e3) ++
            (Event.call "downloadWithYtdlCore" :: e4), .ok ())
        | .error m =>
          ((Event.call "downloadSimple" :: e1) ++
            (Event.call "downloadWithChromeCookies" :: e2) ++
            (Event.call "downloadWithYtDlp" :: e3) ++
            (Event.call "downloadWithYtdlCore" :: e4),
           .error ("Não foi possível baixar o vídeo após múltiplas tentativas: " ++ m))

/-! ## Transcription polling (transcriber.ts lines 1187-1251)

`waitForTranscriptionCompletion` loops, and on each iteration the whole
body — the HTTP GET **and** the handling of the returned status,
including the `throw new Error('Transcription error: ...')` for a remote
`error` status (line 1228) — sits inside one `try` whose `catch`
(lines 1244-1249) logs, sleeps 5 seconds and continues the loop.  A
`completed` status returns the payload after setting transcription
progress to 100; any other status updates progress only when
`Math.abs(percent - lastProgress) > 5`, then sleeps 3 seconds. -/

/-- One poll iteration's input: the remote status (`completed`, `error`,
or anything else carrying `percent_complete`, 0 when absent), or a
failure of the poll HTTP request itself. -/
inductive PollResp where
  | completed (t : Transcript)
  | errorStatus (msg : String)
  | processing (percent : Rat)
  | requestFailure (msg : String)
deriving DecidableEq, Repr

/-- `Transcriber.waitForTranscriptionCompletion` (lines 1187-1251), run
over a finite list of poll responses; `last` is `lastProgress`
(initially 0).  Returns the emitted events and `some transcript` when a
`completed` status was reached, `none` when every response was consumed
and the loop is still running.  Note that a remote `error` status throws
*inside* the `try`, so its exception is caught by the loop's own `catch`
and the loop sleeps 5 seconds and retries, exactly like a failed poll
request. -/
def pollLoop : List PollResp → Rat → List Event × Option Transcript
  | [], _ => ([], none)
  | .completed t :: _, _ => ([Event.progress .transcription 100], some t)
  | .errorStatus _ :: rest, last =>
    let (evs, res) := pollLoop rest last
    (Event.wait 5000 :: evs, res)
  | .requestFailure _ :: rest, last =>
    let (evs, res) := pollLoop rest last
    (Event.wait 5000 :: evs, res)
  | .processing p :: rest, last =>
    if abs (p - last) > 5 then
      let (evs, res) := pollLoop rest p
      (Event.progress .transcription p :: Event.wait 3000 :: evs, res)
    else
      let (evs, res) := pollLoop rest last
      (Event.wait 3000 :: evs, res)

/-! ## Result formatting (transcriber.ts lines 1319-1365) -/

/-- Sentinel produced when the transcript has no utterances
(line 1321). -/
def noUtterancesMsg : String := "Não foram encontradas utterances na transcrição."

/-- `utterance.speaker || 'Unknown'` (line 1329): an absent or empty
(falsy) speaker label becomes `Unknown`. -/
def speakerOf (u : Utterance) : String :=
  match u.speaker with
  | some s => if s = "" then "Unknown" else s
  | none => "Unknown"

/-- Characters removed by JavaScript `String.prototype.trim`:
WhiteSpace and LineTerminator code points. -/
def isJsSpace (c : Char) : Bool :=
  c = ' ' || c = '\t' || c = '\n' || c.val = 0x0B || c.val = 0x0C || c = '\r' ||
  c.val = 0xA0 || c.val = 0x1680 || (0x2000 ≤ c.val && c.val ≤ 0x200A) ||
  c.val = 0x2028 || c.val = 0x2029 || c.val = 0x202F || c.val = 0x205F ||
  c.val = 0x3000 || c.val = 0xFEFF

/-- JavaScript `trim`: strip `isJsSpace` characters from both ends. -/
def jsTrim (s : String) : String :=
  String.mk ((((s.toList.dropWhile isJsSpace).reverse.dropWhile isJsSpace).reverse))

/-- `utterance.text?.trim() || ''` (line 1330): absent text becomes the
empty string, present text is trimmed. -/
def textOf (u : Utterance) : String :=
  match u.text with
  | some s => jsTrim s
  | none => ""

/-- Rendering of `currentSpeaker` inside the template literal
`Falante ${currentSpeaker}:` — a `null` speaker would print as the
string `null`. -/
def showSpeaker : Option String → String
  | some s => s
  | none => "null"

/-- One pushed paragraph (lines 1333 and 1342):
`Falante S:\ntext1 text2 ...\n`. -/
def paragraph (sp : Option String) (texts : List String) : String :=
  "Falante " ++ showSpeaker sp ++ ":\n" ++ String.intercalate " " texts ++ "\n"

/-- The accumulator loop of `formatUtterances` (lines 1324-1343):
`cur` is `currentSpeaker`, `curText` is `currentText`, `acc` is
`formatted`.  A paragraph is flushed when the speaker label changes and
the current text buffer is nonempty; a final nonempty buffer is flushed
after the loop. -/
def formatLoop : List Utterance → Option String → List String → List String → List String
  | [], cur, curText, acc =>
    if curText.length > 0 then acc ++ [paragraph cur curText] else acc
  | u :: rest, cur, curText, acc =>
    let sp := speakerOf u
    let tx := textOf u
    if cur ≠ some sp ∧ curText.length > 0 then
      formatLoop rest (some sp) [tx] (acc ++ [paragraph cur curText])
    else
      formatLoop rest (some sp) (curText ++ [tx]) acc

/-- `Transcriber.formatUtterances` (lines 1319-1346). -/
def formatUtterances (t : Transcript) : String :=
  match t.utterances with
  | none => noUtterancesMsg
  | some us =>
    if us.length = 0 then noUtterancesMsg
    else String.intercalate "\n" (formatLoop us none [] [])

/-- `Transcriber.formatTime` (lines 1360-1365) over integral millisecond
inputs: minutes (two digits, zero-padded) and seconds with two decimals
(zero-padded to width 5); the fractional part rounds at the hundredth as
`toFixed(2)` does. -/
def formatTime (ms : Nat) : String :=
  let minutes := ms / 60000
  let centis := ((ms % 60000) + 5) / 10
  let minStr :=
    let s := toString minutes
    if s.length < 2 then String.mk (List.replicate (2 - s.length) '0') ++ s else s
  let secStr :=
    let s := toString (centis / 100) ++ "." ++
      (let c := toString (centis % 100)
       if c.length < 2 then String.mk (List.replicate (2 - c.length) '0') ++ c else c)
    if s.length < 5 then String.mk (List.replicate (5 - s.length) '0') ++ s else s
  minStr ++ ":" ++ secStr

/-- `Transcriber.formatTimestamps` (lines 1348-1358):
`[start - end] word`, one line per word, or a sentinel when the
transcript carries no words. -/
def formatTimestamps (t : Transcript) : String :=
  match t.words with
  | none => "Não foram encontrados timestamps na transcrição."
  | some ws =>
    if ws.length = 0 then "Não foram encontrados timestamps na transcrição."
    else
      String.intercalate "\n"
        (ws.map (fun w => "[" ++ formatTime w.start ++ " - " ++ formatTime w.stop ++ "] " ++ w.text))

/-- The fixed-width separator line `"=".repeat(50)`. -/
def sepLine : String := String.mk (List.replicate 50 '=')

/-- The full annotated document assembled by `saveTranscript`
(lines 1280-1298); `nowIso` is the `new Date().toISOString()` stamp. -/
def fullTranscriptDoc (t : Transcript) (videoTitle videoUrl nowIso : String) : String :=
  String.intercalate "\n"
    [sepLine,
     "TRANSCRIÇÃO DO VÍDEO: " ++ videoTitle,
     "URL: " ++ videoUrl,
     sepLine ++ "\n",
     "=== INFORMAÇÕES DA TRANSCRIÇÃO ===\n",
     "Data da transcrição: " ++ nowIso,
     "Duração total: " ++ formatTime t.audio_duration,
     "\n" ++ sepLine ++ "\n",
     "=== TRANSCRIÇÃO POR FALANTES ===\n",
     formatUtterances t,
     "\n" ++ sepLine ++ "\n",
     "=== TRANSCRIÇÃO COM TIMESTAMPS ===\n",
     formatTimestamps t,
     "\n" ++ sepLine ++ "\n",
     "=== TEXTO COMPLETO ===\n",
     t.text,
     "\n\n" ++ sepLine]

/-- `Transcriber.saveTranscript` (lines 1253-1317): writes the full
document to `transcriptPath` and the speaker document to `simplePath`;
a filesystem failure is rethrown as `Failed to save transcript:` plus
the message. -/
def saveTranscript (t : Transcript) (transcriptPath simplePath videoTitle videoUrl nowIso : String)
    (saveError : Option String) : List Event × Except String Unit :=
  match saveError with
  | some m => ([], .error ("Failed to save transcript: " ++ m))
  | none =>
    ([Event.write transcriptPath (fullTranscriptDoc t videoTitle videoUrl nowIso),
      Event.write simplePath (formatUtterances t)], .ok ())

/-! ## Transcription stage (transcriber.ts lines 840-873, 1132-1185) -/

/-- Environment of the transcription stage: the AssemblyAI upload
response (`.ok uploadUrl` / `.error axiosMsg`), the transcript-creation
response, the poll responses, and an optional transcript-write
failure. -/
structure TranscribeEnv where
  uploadResult : Except String String
  submitResult : Except String String
  polls : List PollResp
  saveError : Option String

/-- `Transcriber.uploadAudio` (lines 1132-1164): throws when the audio
file does not exist, otherwise the axios POST decides. -/
def uploadAudio (audioExists : Bool) (audioPath : String) (r : Except String String) :
    Except String String :=
  if audioExists then r else .error ("Audio file not found: " ++ audioPath)

/-- `Transcriber.transcribeAudio` (lines 840-873): sets status
`transcribing` (line 849), uploads, creates the remote job, polls to
completion and saves; any error from those steps is rethrown wrapped as
`Transcription error:` plus its message (line 871).  When the polling
loop is still running after all modelled responses the stage is
`running` (the source would still be inside the loop). -/
def transcribeAudio (audioExists : Bool)
    (audioPath transcriptPath simplePath videoTitle videoUrl nowIso : String)
    (env : TranscribeEnv) : List Event × RunResult :=
  let st := Event.status .transcribing none none
  match uploadAudio audioExists audioPath env.uploadResult with
  | .error m => ([st, Event.call "uploadAudio"], .failure ("Transcription error: " ++ m))
  | .ok _ =>
    match env.submitResult with
    | .error m =>
      ([st, Event.call "uploadAudio", Event.call "startTranscriptionJob"],
       .failure ("Transcription error: " ++ m))
    | .ok _ =>
      let (pe, pres) := pollLoop env.polls 0
      match pres with
      | none => ([st, Event.call "uploadAudio", Event.call "startTranscriptionJob"] ++ pe, .running)
      | some t =>
        let (se, sres) := saveTranscript t transcriptPath simplePath videoTitle videoUrl nowIso
          env.saveError
        match sres with
        | .error m =>
          ([st, Event.call "uploadAudio", Event.call "startTranscriptionJob"] ++ pe,
           .failure ("Transcription error: " ++ m))
        | .ok _ =>
          ([st, Event.call "uploadAudio", Event.call "startTranscriptionJob"] ++ pe ++ se, .success)

/-! ## The per-job background task (transcriber.ts lines 125-204) -/

/-- Derived artifact-key stem (lines 135-137):
`video_${videoId}_${timestamp}` — the extracted video id *plus* the
submission-time `new Date().getTime()` stamp (`timestamp para garantir
nomes únicos`). -/
def videoTitle (videoId : String) (timestamp : Nat) : String :=
  "video_" ++ videoId ++ "_" ++ toString timestamp

/-- The artifact key `processVideo` derives from a source reference at a
given submission time (lines 130-137): `none` when the video id cannot
be extracted. -/
def derivedTitle (url : String) (timestamp : Nat) : Option String :=
  (extractVideoId url).map (fun vid => videoTitle vid timestamp)

/-- `path.join('audios', title + '.mp3')` (line 144). -/
def audioPathOf (title : String) : String := "audios/" ++ title ++ ".mp3"

/-- `path.join('transcricoes', title + '.txt')` (line 145). -/
def transcriptPathOf (title : String) : String := "transcricoes/" ++ title ++ ".txt"

/-- `path.join('transcricoes', title + '_simples.txt')` (line 146). -/
def simplePathOf (title : String) : String := "transcricoes/" ++ title ++ "_simples.txt"

/-- Environment of a whole `processVideo` run: the submission timestamp,
the ISO stamp used inside the saved document, the idempotency check's
`fs.existsSync(transcriptPath)` result, the acquisition environment, the
post-download `fs.existsSync(audioPath)` result, the transcription
environment, and the outcome of the final `fs.unlinkSync(audioPath)`
(`none` = removal succeeded, `some m` = it threw with message `m`). -/
structure ProcEnv where
  timestamp : Nat
  nowIso : String
  transcriptExists : Bool
  download : DownloadEnv
  audioExistsAfterDownload : Bool
  transcribe : TranscribeEnv
  unlinkError : Option String

/-- `Transcriber.processVideo` (lines 125-204): extract the video id
(failure throws `Could not extract video ID from URL:`), derive the
artifact paths, return `completed` at once when the transcript already
exists (lines 157-164), otherwise download, verify the audio artifact,
transcribe, mark the job `completed` with the result paths (lines
190-193) and finally `fs.unlinkSync` the audio file (line 197) — which
is *inside* the surrounding `try`, so an unlink failure reaches the
catch-all at lines 200-203 and overwrites the job status with `error`.
Every failure path ends in `updateJobStatus(jobId, 'error', message)`. -/
def processVideo (url : String) (env : ProcEnv) : List Event × RunResult :=
  match extractVideoId url with
  | none =>
    let m := "Could not extract video ID from URL: " ++ url
    ([Event.status .error (some m) none], .failure m)
  | some vid =>
    let title := videoTitle vid env.timestamp
    let aPath := audioPathOf title
    let tPath := transcriptPathOf title
    let sPath := simplePathOf title
    if env.transcriptExists then
      ([Event.status .completed none (some (tPath, sPath))], .success)
    else
      let (de, dres) := downloadVideo url aPath env.download
      match dres with
      | .error m => (de ++ [Event.status .error (some m) none], .failure m)
      | .ok _ =>
        if !env.audioExistsAfterDownload then
          let m := "Audio file not created after download: " ++ aPath
          (de ++ [Event.status .error (some m) none], .failure m)
        else
          let (te, tres) := transcribeAudio true aPath tPath sPath title url env.nowIso
            env.transcribe
          match tres with
          | .running => (de ++ te, .running)
          | .failure m => (de ++ te ++ [Event.status .error (some m) none], .failure m)
          | .success =>
            let doneEv := Event.status .completed none (some (tPath, sPath))
            match env.unlinkError with
            | none => (de ++ te ++ [doneEv], .success)
            | some m =>
              (de ++ te ++ [doneEv, Event.status .error (some m) none], .failure m)

/-! ## Job registry and socket broadcast (transcriber.ts lines 1367-1389)

The `jobs` map is modelled as an association list in insertion order
(`Map.set` on an existing key replaces in place, on a fresh key
appends). -/

/-- Replace the value stored under an existing key, preserving order. -/
def setEntry : List (String × Job) → String → Job → List (String × Job)
  | [], _, _ => []
  | (k, v) :: rest, id, j => if k = id then (k, j) :: rest else (k, v) :: setEntry rest id j

/-- The mutation performed by `updateJobStatus` on a found job
(lines 1375-1377): the status is always assigned; `error` and `result`
are assigned only when truthy (an empty-string error message is falsy
and leaves the field alone). -/
def applyStatus (j : Job) (s : Status) (err : Option String)
    (result : Option (String × String)) : Job :=
  { j with
    status := s
    error := match err with
      | some e => if e = "" then j.error else some e
      | none => j.error
    result := match result with
      | some r => some r
      | none => j.result }

/-- `Transcriber.updateJobStatus` (lines 1367-1381): looks the job up;
when absent nothing happens and nothing is broadcast; when present the
job is mutated and the updated snapshot is emitted over socket.io.
Returns the new registry and the broadcast snapshots. -/
def updateJobStatus (reg : List (String × Job)) (jobId : String) (s : Status)
    (err : Option String) (result : Option (String × String)) :
    List (String × Job) × List Job :=
  match reg.lookup jobId with
  | none => (reg, [])
  | some j =>
    let j' := applyStatus j s err result
    (setEntry reg jobId j', [j'])

/-- The mutation performed by `updateJobProgress` (line 1386):
`job.progress[type] = percent`, verbatim, with no clamping and no
monotonicity guard. -/
def applyProgress (j : Job) (k : ProgKind) (p : Rat) : Job :=
  match k with
  | .download => { j with progressDownload := p }
  | .transcription => { j with progressTranscription := p }

/-- `Transcriber.updateJobProgress` (lines 1383-1389): same lookup
discipline as `updateJobStatus`. -/
def updateJobProgress (reg : List (String × Job)) (jobId : String) (k : ProgKind) (p : Rat) :
    List (String × Job) × List Job :=
  match reg.lookup jobId with
  | none => (reg, [])
  | some j =>
    let j' := applyProgress j k p
    (setEntry reg jobId j', [j'])

/-! ## Submission (transcriber.ts lines 78-115) -/

/-- A fresh `pending` job record, as `startTranscription` creates it. -/
def freshJob (jobId url : String) (createdAt : Nat) : Job where
  id := jobId
  videoUrl := url
  status := .pending
  progressDownload := 0
  progressTranscription := 0
  result := none
  error := none
  createdAt := createdAt

/-- `Transcriber.startTranscription` (lines 78-115): throws when the
configured API key or ffmpeg path is missing (falsy), throws
`Invalid YouTube URL` when the reference fails the validation regex,
otherwise stores a fresh `pending` job (progress 0/0, no result, no
error) under a new id, schedules the background task, and returns the
job id.  `jobId` stands for the generated `uuidv4()` and `createdAt`
for `new Date()`. -/
def startTranscription (apiKey ffmpegPath jobId : String) (url : String) (createdAt : Nat)
    (reg : List (String × Job)) : Except String (String × List (String × Job)) :=
  if apiKey = "" then .error "AssemblyAI API key not found"
  else if ffmpegPath = "" then .error "FFmpeg path not found"
  else if !validYoutubeUrl url then .error "Invalid YouTube URL"
  else .ok (jobId, reg ++ [(jobId, freshJob jobId url createdAt)])

/-! ## Trace observers -/

/-- Status values broadcast along a trace, in order. -/
def statusList (l : List Event) : List Status :=
  l.filterMap fun e =>
    match e with
    | .status s _ _ => some s
    | _ => none

/-- The spec's status order: `Pending < Acquiring < Transcribing <
terminal`; the two terminal states share a rank. -/
def statusRank : Status → Nat
  | .pending => 0
  | .downloading => 1
  | .transcribing => 2
  | .completed => 3
  | .error => 3

/-- Acquisition-progress percentages broadcast along a trace, in order. -/
def downloadPercents (l : List Event) : List Rat :=
  l.filterMap fun e =>
    match e with
    | .progress .download p => some p
    | _ => none

/-- Transcription-progress percentages broadcast along a trace, in
order. -/
def transcriptionPercents (l : List Event) : List Rat :=
  l.filterMap fun e =>
    match e with
    | .progress .transcription p => some p
    | _ => none

/-- Acquisition-strategy invocations recorded along a trace, in order. -/
def strategyCalls (l : List Event) : List String :=
  l.filterMap fun e =>
    match e with
    | .call n => if n ∈ strategyNames then some n else none
    | _ => none

/-- Transcription-client invocations (the AssemblyAI upload and the
remote-job creation) recorded along a trace, in order. -/
def clientCalls (l : List Event) : List String :=
  l.filterMap fun e =>
    match e with
    | .call n => if n = "uploadAudio" ∨ n = "startTranscriptionJob" then some n else none
    | _ => none

/-- Sleep durations recorded along a trace, in order. -/
def waitsOf (l : List Event) : List Nat :=
  l.filterMap fun e =>
    match e with
    | .wait ms => some ms
    | _ => none

/-- Paths written along a trace, in order. -/
def writesOf (l : List Event) : List String :=
  l.filterMap fun e =>
    match e with
    | .write p _ => some p
    | _ => none

/-! ## Claim C9 — updates on a nonexistent id are inert -/

/-- Claim C9: for every job identifier not present in the registry, a
status or progress update call is a no-op: it never raises (the model
functions are total), it leaves the registry unchanged, and it triggers
no broadcast to observers. -/
theorem updateOnMissingIdIsNoOp (reg : List (String × Job)) (jobId : String)
    (s : Status) (err : Option String) (result : Option (String × String))
    (k : ProgKind) (p : Rat) (h : reg.lookup jobId = none) :
    updateJobStatus reg jobId s err result = (reg, []) ∧
    updateJobProgress reg jobId k p = (reg, []) := by
  constructor
  · unfold updateJobStatus
    rw [h]
  · unfold updateJobProgress
    rw [h]

/-- Witness for C9: a concrete registry holding one other job, updated
under an absent id. -/
theorem updateOnMissingIdIsNoOp_witness :
    updateJobStatus [("a", freshJob "a" "u" 0)] "b" .completed none none =
      ([("a", freshJob "a" "u" 0)], []) ∧
    updateJobProgress [("a", freshJob "a" "u" 0)] "b" .download 50 =
      ([("a", freshJob "a" "u" 0)], []) :=
  updateOnMissingIdIsNoOp _ "b" .completed none none .download 50 (by decide)

/-! ## Claim C5 — synchronous validation, immediate Pending job -/

/-- Claim C5: for every submission to a configured transcriber (API key
and ffmpeg path present), a malformed source reference is rejected
synchronously with the validation error, that rejection is the only
synchronous failure mode (every error outcome is the validation error,
and it occurs exactly on malformed references), and every valid source
reference yields the job id and a registry extended with a fresh job in
`pending` state — the acquisition chain is not consulted at all. -/
theorem submitValidation (apiKey ffmpegPath jobId url : String) (createdAt : Nat)
    (reg : List (String × Job)) (hk : apiKey ≠ "") (hf : ffmpegPath ≠ "") :
    (validYoutubeUrl url = false →
      startTranscription apiKey ffmpegPath jobId url createdAt reg =
        .error "Invalid YouTube URL") ∧
    (∀ e, startTranscription apiKey ffmpegPath jobId url createdAt reg = .error e →
      e = "Invalid YouTube URL" ∧ validYoutubeUrl url = false) ∧
    (validYoutubeUrl url = true →
      startTranscription apiKey ffmpegPath jobId url createdAt reg =
        .ok (jobId, reg ++ [(jobId, freshJob jobId url createdAt)])) := by
  unfold startTranscription
  rw [if_neg hk, if_neg hf]
  refine ⟨fun hv => ?_, fun e he => ?_, fun hv => ?_⟩
  · rw [hv]; rfl
  · by_cases hv : validYoutubeUrl url
    · rw [hv] at he; simp at he
    · rw [Bool.not_eq_true] at hv
      rw [hv] at he
      simp only [Bool.not_false, if_true] at he
      exact ⟨(Except.error.injEq _ _).mp he.symm |>.symm ▸ rfl, hv⟩
  · rw [hv]; rfl

/-- Witness for C5: a configured transcriber accepts a well-formed
reference with a `pending` job and rejects a malformed one with the
validation error. -/
theorem submitValidation_witness :
    startTranscription "key" "/usr/bin/ffmpeg" "job-1"
        "https://www.youtube.com/watch?v=dQw4w9WgXcQ" 1700000000000 [] =
      .ok ("job-1", [("job-1",
        freshJob "job-1" "https://www.youtube.com/watch?v=dQw4w9WgXcQ" 1700000000000)]) ∧
    startTranscription "key" "/usr/bin/ffmpeg" "job-2" "https://example.com/video"
        1700000000000 [] = .error "Invalid YouTube URL" :=
  ⟨(submitValidation "key" "/usr/bin/ffmpeg" "job-1"
      "https://www.youtube.com/watch?v=dQw4w9WgXcQ" 1700000000000 []
      (by decide) (by decide)).2.2 (by decide),
   (submitValidation "key" "/usr/bin/ffmpeg" "job-2" "https://example.com/video"
      1700000000000 [] (by decide) (by decide)).1 (by decide)⟩

/-! ## Claim C7 — speaker-grouped document -/

/-- A source utterance reduced to its resolved speaker label and text,
with the source's defaulting rules applied. -/
def resolvedUtterance (u : Utterance) : String × String :=
  (speakerOf u, textOf u)

/-- Prepend a run of texts for speaker `s` to a run list, merging with
the head run when it carries the same label. -/
def consRun (s : String) (ts : List String) :
    List (String × List String) → List (String × List String)
  | [] => [(s, ts)]
  | (s', ts') :: g => if s = s' then (s, ts ++ ts') :: g else (s, ts) :: (s', ts') :: g

/-- Spec-side grouping: maximal runs of consecutive utterances sharing a
speaker label, in transcript order. -/
def groupRuns : List (String × String) → List (String × List String)
  | [] => []
  | (s, t) :: rest => consRun s [t] (groupRuns rest)

/-- Spec-side rendering of one speaker run as a paragraph. -/
def renderRun (r : String × List String) : String :=
  "Falante " ++ r.1 ++ ":\n" ++ String.intercalate " " r.2 ++ "\n"

/-- The speaker-grouped document as the spec words it: utterances are
grouped into maximal same-speaker runs, each run becomes one paragraph,
paragraphs appear in transcript order, and an empty or missing utterance
list yields the fixed sentinel. -/
def specSpeakerDocument (t : Transcript) : String :=
  match t.utterances with
  | none => noUtterancesMsg
  | some [] => noUtterancesMsg
  | some us => String.intercalate "\n" ((groupRuns (us.map resolvedUtterance)).map renderRun)

theorem consRun_consRun_same (s : String) (ts tx : List String)
    (g : List (String × List String)) :
    consRun s ts (consRun s tx g) = consRun s (ts ++ tx) g := by
  cases g with
  | nil => simp [consRun]
  | cons hd tl =>
    obtain ⟨s', ts'⟩ := hd
    by_cases h : s = s' <;> simp [consRun, h]

theorem consRun_head_ne (s sp : String) (ts tx : List String)
    (g : List (String × List String)) (h : s ≠ sp) :
    consRun s ts (consRun sp tx g) = (s, ts) :: consRun sp tx g := by
  cases g with
  | nil => simp [consRun, h]
  | cons hd tl =>
    obtain ⟨s', ts'⟩ := hd
    by_cases h2 : sp = s'
    · subst h2; simp [consRun, h]
    · simp [consRun, h2, h]

theorem paragraph_eq_renderRun (s : String) (ts : List String) :
    paragraph (some s) ts = renderRun (s, ts) := rfl

/-- The imperative accumulator loop of `formatUtterances` computes the
spec-side run grouping, given a nonempty current buffer. -/
theorem formatLoop_spec (us : List Utterance) (s : String) (ts : List String)
    (acc : List String) (h : ts ≠ []) :
    formatLoop us (some s) ts acc =
      acc ++ (consRun s ts (groupRuns (us.map resolvedUtterance))).map renderRun := by
  induction us generalizing s ts acc with
  | nil =>
    have hl : ts.length > 0 := List.length_pos.mpr h
    simp only [formatLoop, List.map_nil, groupRuns, consRun, if_pos hl, List.map_cons,
      List.map_nil, paragraph_eq_renderRun]
  | cons u rest ih =>
    by_cases hsp : s = speakerOf u
    · have hcond : ¬((some s ≠ some (speakerOf u)) ∧ ts.length > 0) := by
        simp [hsp]
      simp only [formatLoop, if_neg hcond]
      rw [ih (speakerOf u) (ts ++ [textOf u]) acc (by simp)]
      simp only [List.map_cons, groupRuns, resolvedUtterance]
      rw [hsp, consRun_consRun_same]
    · have hcond : (some s ≠ some (speakerOf u)) ∧ ts.length > 0 :=
        ⟨by simpa using hsp, List.length_pos.mpr h⟩
      simp only [formatLoop, if_pos hcond]
      rw [ih (speakerOf u) [textOf u] (acc ++ [paragraph (some s) ts]) (by simp)]
      simp only [List.map_cons, groupRuns, resolvedUtterance]
      rw [consRun_head_ne s (speakerOf u) ts [textOf u] _ hsp]
      simp [paragraph_eq_renderRun]

/-- Claim C7: the speaker-grouped document merges successive utterances
sharing a speaker label into one paragraph, breaks exactly when the
label changes, renders utterances in transcript order (`formatUtterances`
coincides with the spec-side run grouping on every transcript), the
utterances `[A: hi, A: there, B: yo, A: bye]` produce exactly the three
paragraphs A, B, A in order, and an empty or missing utterance list
yields the fixed sentinel string. -/
theorem speakerDocumentGrouping :
    (∀ t : Transcript, formatUtterances t = specSpeakerDocument t) ∧
    formatUtterances
      ⟨some [⟨some "A", some "hi"⟩, ⟨some "A", some "there"⟩,
             ⟨some "B", some "yo"⟩, ⟨some "A", some "bye"⟩], none, "", 0⟩ =
      "Falante A:\nhi there\n\nFalante B:\nyo\n\nFalante A:\nbye\n" ∧
    formatUtterances ⟨some [], none, "", 0⟩ = noUtterancesMsg ∧
    formatUtterances ⟨none, none, "", 0⟩ = noUtterancesMsg := by
  refine ⟨fun t => ?_, by decide, by decide, rfl⟩
  unfold formatUtterances specSpeakerDocument
  cases t.utterances with
  | none => rfl
  | some us =>
    cases us with
    | nil => rfl
    | cons u rest =>
      simp only [List.length_cons, Nat.succ_ne_zero, if_neg]
      have h0 : ¬((none ≠ some (speakerOf u)) ∧ ([] : List String).length > 0) := by simp
      simp only [formatLoop, if_neg h0]
      rw [show ([] : List String) ++ [textOf u] = [textOf u] from rfl,
        formatLoop_spec rest (speakerOf u) [textOf u] [] (by simp)]
      simp [groupRuns, resolvedUtterance]

/-! ## Claim C10 — validation passes, extraction fails -/

/-- Claim C10: there are source references that pass the submission-time
syntax validation while the video-id extraction fails (the captured token
is not 11 characters long) — `watch?v=abc` is one — and for every such
reference the background task immediately records `Failed` with the
`Could not extract video ID` message, invoking no acquisition
strategy. -/
theorem validButUnextractableFails :
    (validYoutubeUrl "https://www.youtube.com/watch?v=abc" = true ∧
      extractVideoId "https://www.youtube.com/watch?v=abc" = none) ∧
    (∀ (url : String) (env : ProcEnv),
      validYoutubeUrl url = true → extractVideoId url = none →
        processVideo url env =
          ([Event.status .error (some ("Could not extract video ID from URL: " ++ url)) none],
            .failure ("Could not extract video ID from URL: " ++ url)) ∧
        strategyCalls (processVideo url env).1 = []) := by
  refine ⟨⟨by decide, by decide⟩, fun url env _hv he => ?_⟩
  have hp : processVideo url env =
      ([Event.status .error (some ("Could not extract video ID from URL: " ++ url)) none],
        .failure ("Could not extract video ID from URL: " ++ url)) := by
    unfold processVideo
    rw [he]
  exact ⟨hp, by rw [hp]; rfl⟩

/-- A subprocess run that closes with exit code 0 and leaves the output
file in place. -/
def okRun : ProcRun := ⟨[], .ok 0, true⟩

/-- A concrete all-succeeding acquisition environment. -/
def exampleDownloadEnv : DownloadEnv where
  simple := ⟨[], 0, true⟩
  chrome := ⟨none, okRun⟩
  ytdlp := ⟨false, fun _ => okRun, okRun, okRun⟩
  core := ⟨none, true, none, [], .finish, true⟩

/-- A concrete transcription environment that completes on the first
poll. -/
def exampleTranscribeEnv : TranscribeEnv :=
  ⟨.ok "https://cdn/upload", .ok "remote-1", [.completed ⟨none, none, "", 0⟩], none⟩

/-- A concrete full-pipeline environment. -/
def exampleProcEnv : ProcEnv :=
  ⟨1700000000000, "2023-11-14T22:13:20.000Z", false, exampleDownloadEnv, true,
    exampleTranscribeEnv, none⟩

/-- Witness for C10 at the concrete reference `watch?v=abc`. -/
theorem validButUnextractableFails_witness :
    validYoutubeUrl "https://www.youtube.com/watch?v=abc" = true ∧
    processVideo "https://www.youtube.com/watch?v=abc" exampleProcEnv =
      ([Event.status .error
          (some ("Could not extract video ID from URL: " ++
            "https://www.youtube.com/watch?v=abc")) none],
        .failure ("Could not extract video ID from URL: " ++
          "https://www.youtube.com/watch?v=abc")) ∧
    strategyCalls (processVideo "https://www.youtube.com/watch?v=abc" exampleProcEnv).1 = [] :=
  ⟨by decide,
   (validButUnextractableFails.2 "https://www.youtube.com/watch?v=abc" exampleProcEnv
      (by decide) (by decide)).1,
   (validButUnextractableFails.2 "https://www.youtube.com/watch?v=abc" exampleProcEnv
      (by decide) (by decide)).2⟩

/-! ## Claim C1 — remote `error` status never escapes the poll loop

The spec says a remote `error` status raises and fails the job.  In the
source the corresponding `throw` (line 1228) sits *inside* the `try`
whose `catch` (lines 1244-1249) was written for transient poll-request
failures; the exception is therefore swallowed, the loop sleeps the
5-second back-off and polls the same errored remote job again, forever.
The job never transitions to `Failed` on this path. -/

theorem pollLoop_replicate_errorStatus (msg : String) :
    ∀ (n : Nat) (last : Rat),
      pollLoop (List.replicate n (PollResp.errorStatus msg)) last =
        (List.replicate n (Event.wait 5000), none) := by
  intro n
  induction n with
  | zero => intro last; rfl
  | succ k ih =>
    intro last
    simp only [List.replicate_succ, pollLoop, ih last]

/-- Claim C1 (evidence of the code defect): however often the remote
service reports status `error`, the polling loop raises nothing and
terminates nothing — it emits one 5-second back-off sleep per errored
poll and is still running afterwards, and the transcription stage is
accordingly still `running`, so the job never reaches `Failed` with the
remote message. -/
theorem remoteErrorNeverRaises (msg : String) (n : Nat)
    (audioPath transcriptPath simplePath videoTitle videoUrl nowIso uploadUrl remoteId : String)
    (saveErr : Option String) :
    pollLoop (List.replicate (n + 1) (PollResp.errorStatus msg)) 0 =
      (List.replicate (n + 1) (Event.wait 5000), none) ∧
    (transcribeAudio true audioPath transcriptPath simplePath videoTitle videoUrl nowIso
        ⟨.ok uploadUrl, .ok remoteId, List.replicate (n + 1) (.errorStatus msg), saveErr⟩).2 =
      .running := by
  refine ⟨pollLoop_replicate_errorStatus msg (n + 1) 0, ?_⟩
  unfold transcribeAudio uploadAudio
  simp only [if_pos trivial, if_true]
  rw [pollLoop_replicate_errorStatus msg (n + 1) 0]

/-! ## Claim C8 — poll-loop cadence, back-off and delta filtering -/

/-- The transcript returned by the first `completed` poll response, if
any response sequence point reaches one. -/
def firstCompleted : List PollResp → Option Transcript
  | [] => none
  | .completed t :: _ => some t
  | _ :: r => firstCompleted r

/-- The responses the loop consumes strictly before the first
`completed` one. -/
def untilCompleted : List PollResp → List PollResp
  | [] => []
  | .completed _ :: _ => []
  | r :: rest => r :: untilCompleted rest

/-- Sleep taken after one non-`completed` poll iteration: 3 seconds
after an ordinary status poll, the 5-second back-off after a failed poll
request — and, because the remote-`error` throw is caught by the same
handler, also after a remote `error` report. -/
def backoffOf : PollResp → Nat
  | .processing _ => 3000
  | _ => 5000

/-- Spec-side description of the progress updates: an ordinary poll
updates only when the percentage moved by strictly more than 5 from the
last reported value; reaching `completed` reports 100. -/
def deltaUpdates : Rat → List PollResp → List Rat
  | _, [] => []
  | _, .completed _ :: _ => [100]
  | last, .processing p :: r =>
    if abs (p - last) > 5 then p :: deltaUpdates p r else deltaUpdates last r
  | last, .errorStatus _ :: r => deltaUpdates last r
  | last, .requestFailure _ :: r => deltaUpdates last r

/-- Claim C8 as stated is false at a concrete input: with the single
poll response being the terminal remote `error` report, the claim's
"polls until the remote job reports a terminal state" demands that the
loop stop with no further sleeping, but the loop sleeps (the 5-second
back-off) and keeps polling. -/
theorem pollCadence_counterexample :
    ¬ ∀ msg : String, (pollLoop [PollResp.errorStatus msg] 0).1 = [] := by
  intro h
  have hb := h "boom"
  rw [show pollLoop [PollResp.errorStatus "boom"] 0 = ([Event.wait 5000], none) from rfl] at hb
  exact absurd hb (by decide)

/-- `waitsOf` over a prepended sleep. -/
theorem waitsOf_cons_wait (ms : Nat) (l : List Event) :
    waitsOf (Event.wait ms :: l) = ms :: waitsOf l := rfl

/-- `waitsOf` ignores progress events. -/
theorem waitsOf_cons_progress (k : ProgKind) (p : Rat) (l : List Event) :
    waitsOf (Event.progress k p :: l) = waitsOf l := rfl

/-- `transcriptionPercents` ignores sleeps. -/
theorem transcriptionPercents_cons_wait (ms : Nat) (l : List Event) :
    transcriptionPercents (Event.wait ms :: l) = transcriptionPercents l := rfl

/-- `transcriptionPercents` over a prepended transcription update. -/
theorem transcriptionPercents_cons_transcription (p : Rat) (l : List Event) :
    transcriptionPercents (Event.progress .transcription p :: l) =
      p :: transcriptionPercents l := rfl

/-- One unfolding step of the loop on a remote `error` report. -/
theorem pollLoop_cons_errorStatus (m : String) (rest : List PollResp) (last : Rat) :
    pollLoop (.errorStatus m :: rest) last =
      (Event.wait 5000 :: (pollLoop rest last).1, (pollLoop rest last).2) := rfl

/-- One unfolding step of the loop on a failed poll request. -/
theorem pollLoop_cons_requestFailure (m : String) (rest : List PollResp) (last : Rat) :
    pollLoop (.requestFailure m :: rest) last =
      (Event.wait 5000 :: (pollLoop rest last).1, (pollLoop rest last).2) := rfl

/-- One unfolding step of the loop on an ordinary status poll. -/
theorem pollLoop_cons_processing (p : Rat) (rest : List PollResp) (last : Rat) :
    pollLoop (.processing p :: rest) last =
      if abs (p - last) > 5 then
        (Event.progress .transcription p :: Event.wait 3000 :: (pollLoop rest p).1,
          (pollLoop rest p).2)
      else (Event.wait 3000 :: (pollLoop rest last).1, (pollLoop rest last).2) := by
  simp only [pollLoop]

/-- Claim C8 as amended: the loop runs until the first `completed`
response (a remote `error` report does not stop it); each ordinary
status poll is followed by the fixed 3-second sleep while each failed
poll request — and each remote `error` report — is followed by the
5-second back-off and retried indefinitely, raising nothing; and
transcription progress is updated only when the remote percentage moved
by strictly more than the minimum delta of 5 (with 100 reported on
completion). -/
theorem pollCadence (polls : List PollResp) (last : Rat) :
    (pollLoop polls last).2 = firstCompleted polls ∧
    waitsOf (pollLoop polls last).1 = (untilCompleted polls).map backoffOf ∧
    transcriptionPercents (pollLoop polls last).1 = deltaUpdates last polls := by
  induction polls generalizing last with
  | nil => exact ⟨rfl, rfl, rfl⟩
  | cons r rest ih =>
    cases r with
    | completed t => exact ⟨rfl, rfl, rfl⟩
    | errorStatus m =>
      obtain ⟨h1, h2, h3⟩ := ih last
      rw [pollLoop_cons_errorStatus]
      exact ⟨h1,
        by rw [waitsOf_cons_wait, h2]; rfl,
        by rw [transcriptionPercents_cons_wait, h3]; rfl⟩
    | requestFailure m =>
      obtain ⟨h1, h2, h3⟩ := ih last
      rw [pollLoop_cons_requestFailure]
      exact ⟨h1,
        by rw [waitsOf_cons_wait, h2]; rfl,
        by rw [transcriptionPercents_cons_wait, h3]; rfl⟩
    | processing p =>
      rw [pollLoop_cons_processing]
      by_cases hd : abs (p - last) > 5
      · obtain ⟨h1, h2, h3⟩ := ih p
        rw [if_pos hd]
        refine ⟨h1, ?_, ?_⟩
        · rw [waitsOf_cons_progress, waitsOf_cons_wait, h2]; rfl
        · rw [transcriptionPercents_cons_transcription, transcriptionPercents_cons_wait, h3]
          simp only [deltaUpdates, if_pos hd]
      · obtain ⟨h1, h2, h3⟩ := ih last
        rw [if_neg hd]
        refine ⟨h1, ?_, ?_⟩
        · rw [waitsOf_cons_wait, h2]; rfl
        · rw [transcriptionPercents_cons_wait, h3]
          simp only [deltaUpdates, if_neg hd]

/-! ## Claim C2 — artifact key and idempotency skip -/

/-- Claim C2 as stated is false: the artifact key is *not* a function of
the reference alone, because `processVideo` mixes the submission-time
timestamp into it (line 136, `timestamp para garantir nomes únicos`):
the same reference submitted at two different times derives two
different keys. -/
theorem artifactKeyDeterminism_counterexample :
    ¬ ∀ t1 t2 : Nat, derivedTitle "https://youtu.be/dQw4w9WgXcQ" t1 =
        derivedTitle "https://youtu.be/dQw4w9WgXcQ" t2 :=
  fun h => absurd (h 1 2) (by decide)

/-- Claim C2 as amended: the artifact key is a deterministic function of
the extracted video id and the submission timestamp (references with the
same extracted id submitted at the same instant derive the same key),
and whenever the final transcript artifact already exists for the
derived key the job skips directly to `Completed` with that key's paths,
with no acquisition-strategy call and no transcription-client call. -/
theorem idempotencySkip (url : String) (env : ProcEnv) (vid : String)
    (hv : extractVideoId url = some vid) (hex : env.transcriptExists = true) :
    (∀ (url2 : String) (ts : Nat), extractVideoId url2 = extractVideoId url →
      derivedTitle url2 ts = derivedTitle url ts) ∧
    processVideo url env =
      ([Event.status .completed none
          (some (transcriptPathOf (videoTitle vid env.timestamp),
                 simplePathOf (videoTitle vid env.timestamp)))], .success) ∧
    strategyCalls (processVideo url env).1 = [] ∧
    clientCalls (processVideo url env).1 = [] := by
  have hp : processVideo url env =
      ([Event.status .completed none
          (some (transcriptPathOf (videoTitle vid env.timestamp),
                 simplePathOf (videoTitle vid env.timestamp)))], .success) := by
    unfold processVideo
    rw [hv]
    simp only [hex, if_true]
  exact ⟨fun url2 ts h2 => by unfold derivedTitle; rw [h2], hp,
    by rw [hp]; rfl, by rw [hp]; rfl⟩

/-- A full-pipeline environment whose transcript artifact already
exists. -/
def idempotentEnv : ProcEnv := { exampleProcEnv with transcriptExists := true }

/-- Witness for C2 (amended): a reference whose transcript artifact
exists completes at once, with empty strategy- and client-call lists. -/
theorem idempotencySkip_witness :
    processVideo "https://youtu.be/dQw4w9WgXcQ" idempotentEnv =
      ([Event.status .completed none
          (some (transcriptPathOf (videoTitle "dQw4w9WgXcQ" 1700000000000),
                 simplePathOf (videoTitle "dQw4w9WgXcQ" 1700000000000)))], .success) ∧
    strategyCalls (processVideo "https://youtu.be/dQw4w9WgXcQ" idempotentEnv).1 = [] ∧
    clientCalls (processVideo "https://youtu.be/dQw4w9WgXcQ" idempotentEnv).1 = [] :=
  ⟨(idempotencySkip "https://youtu.be/dQw4w9WgXcQ" idempotentEnv "dQw4w9WgXcQ"
      (by decide) rfl).2.1,
   (idempotencySkip "https://youtu.be/dQw4w9WgXcQ" idempotentEnv "dQw4w9WgXcQ"
      (by decide) rfl).2.2.1,
   (idempotencySkip "https://youtu.be/dQw4w9WgXcQ" idempotentEnv "dQw4w9WgXcQ"
      (by decide) rfl).2.2.2⟩

/-! ## Structure of the acquisition traces -/

theorem statusList_append (l1 l2 : List Event) :
    statusList (l1 ++ l2) = statusList l1 ++ statusList l2 := by
  simp [statusList, List.filterMap_append]

theorem transcriptionPercents_append (l1 l2 : List Event) :
    transcriptionPercents (l1 ++ l2) = transcriptionPercents l1 ++ transcriptionPercents l2 := by
  simp [transcriptionPercents, List.filterMap_append]

theorem strategyCalls_append (l1 l2 : List Event) :
    strategyCalls (l1 ++ l2) = strategyCalls l1 ++ strategyCalls l2 := by
  simp [strategyCalls, List.filterMap_append]

theorem downloadPercents_append (l1 l2 : List Event) :
    downloadPercents (l1 ++ l2) = downloadPercents l1 ++ downloadPercents l2 := by
  simp [downloadPercents, List.filterMap_append]

/-- Events an acquisition strategy's own trace consists of: download
progress and the `downloading` status marker, with no collaborator
calls, no transcription progress and no other statuses. -/
def AcqTrace (l : List Event) : Prop :=
  strategyCalls l = [] ∧ transcriptionPercents l = [] ∧
  ∀ s ∈ statusList l, s = Status.downloading

theorem acqTrace_nil : AcqTrace [] :=
  ⟨rfl, rfl, by intro s hs; simp [statusList] at hs⟩

theorem acqTrace_append {l1 l2 : List Event} (h1 : AcqTrace l1) (h2 : AcqTrace l2) :
    AcqTrace (l1 ++ l2) := by
  refine ⟨?_, ?_, ?_⟩
  · rw [strategyCalls_append, h1.1, h2.1]; rfl
  · rw [transcriptionPercents_append, h1.2.1, h2.2.1]; rfl
  · intro s hs
    rw [statusList_append] at hs
    rcases List.mem_append.mp hs with h | h
    · exact h1.2.2 s h
    · exact h2.2.2 s h

theorem acqTrace_cons_progress (p : Rat) {l : List Event} (h : AcqTrace l) :
    AcqTrace (Event.progress .download p :: l) := by
  refine ⟨h.1, h.2.1, ?_⟩
  intro s hs
  exact h.2.2 s hs

theorem acqTrace_cons_downloading {l : List Event} (h : AcqTrace l) :
    AcqTrace (Event.status .downloading none none :: l) := by
  refine ⟨h.1, h.2.1, ?_⟩
  intro s hs
  rw [show statusList (Event.status .downloading none none :: l) =
    Status.downloading :: statusList l from rfl] at hs
  rcases List.mem_cons.mp hs with h' | h'
  · exact h'
  · exact h.2.2 s h'

theorem acqTrace_map_progress {α : Type} (g : α → Rat) (ps : List α) :
    AcqTrace (ps.map (fun p => Event.progress .download (g p))) := by
  induction ps with
  | nil => exact acqTrace_nil
  | cons p r ih => exact acqTrace_cons_progress (g p) ih

theorem acqTrace_tokenEvents (r : ProcRun) : AcqTrace (tokenEvents r) :=
  acqTrace_map_progress id r.tokens

theorem acqTrace_simpleTokenEvents (r : SimpleRun) : AcqTrace (simpleTokenEvents r) :=
  acqTrace_map_progress id r.tokens

theorem acqTrace_downloadSimple (url aPath : String) (r : SimpleRun) :
    AcqTrace (downloadSimple url aPath r).1 := by
  unfold downloadSimple
  cases extractVideoId url with
  | none => exact acqTrace_nil
  | some v =>
    by_cases h0 : r.exitCode = 0
    · by_cases hf : r.fileExists
      · simp only [h0, hf, if_true]
        exact acqTrace_append (acqTrace_simpleTokenEvents r)
          (acqTrace_cons_progress 100 acqTrace_nil)
      · simp only [h0, hf, if_true, if_false, Bool.false_eq_true]
        exact acqTrace_simpleTokenEvents r
    · simp only [h0, if_false]
      exact acqTrace_simpleTokenEvents r

theorem acqTrace_downloadWithChromeCookies (url aPath : String) (env : ChromeEnv) :
    AcqTrace (downloadWithChromeCookies url aPath env).1 := by
  unfold downloadWithChromeCookies
  cases env.setupError with
  | some m => exact acqTrace_nil
  | none =>
    cases extractVideoId url with
    | none => exact acqTrace_nil
    | some v =>
      cases env.dlp.procOutcome with
      | error m => exact acqTrace_tokenEvents env.dlp
      | ok code =>
        by_cases h0 : code = 0
        · by_cases hf : env.dlp.fileExists
          · simp only [h0, hf, if_true]
            exact acqTrace_append (acqTrace_tokenEvents env.dlp)
              (acqTrace_cons_progress 100 acqTrace_nil)
          · simp only [h0, hf, if_true, if_false, Bool.false_eq_true]
            exact acqTrace_tokenEvents env.dlp
        · simp only [h0, if_false]
          exact acqTrace_tokenEvents env.dlp

theorem acqTrace_downloadWithYtDlpAlternative (aPath : String) (r : ProcRun) :
    AcqTrace (downloadWithYtDlpAlternative aPath r).1 := by
  unfold downloadWithYtDlpAlternative
  cases r.procOutcome with
  | error m => exact acqTrace_cons_downloading (acqTrace_tokenEvents r)
  | ok code =>
    by_cases h0 : code = 0
    · by_cases hf : r.fileExists
      · simp only [h0, hf, if_true]
        exact acqTrace_cons_downloading
          (acqTrace_append (acqTrace_tokenEvents r) (acqTrace_cons_progress 100 acqTrace_nil))
      · simp only [h0, hf, if_true, if_false, Bool.false_eq_true]
        exact acqTrace_cons_downloading (acqTrace_tokenEvents r)
    · simp only [h0, if_false]
      exact acqTrace_cons_downloading (acqTrace_tokenEvents r)

theorem acqTrace_tryFinalDownload (aPath : String) (env : YtDlpEnv) :
    AcqTrace (tryFinalDownload aPath env).1 := by
  unfold tryFinalDownload
  cases hpo : env.final.procOutcome with
  | error m =>
    exact acqTrace_append (acqTrace_tokenEvents env.final)
      (acqTrace_downloadWithYtDlpAlternative aPath env.alt)
  | ok code =>
    by_cases h0 : code = 0
    · by_cases hf : env.final.fileExists
      · simp only [h0, hf, if_true]
        exact acqTrace_append (acqTrace_tokenEvents env.final)
          (acqTrace_cons_progress 100 acqTrace_nil)
      · simp only [h0, hf, if_true, if_false, Bool.false_eq_true]
        exact acqTrace_append (acqTrace_tokenEvents env.final)
          (acqTrace_downloadWithYtDlpAlternative aPath env.alt)
    · simp only [h0, if_false]
      exact acqTrace_append (acqTrace_tokenEvents env.final)
        (acqTrace_downloadWithYtDlpAlternative aPath env.alt)

theorem acqTrace_tryDownloadWithBrowsers (aPath : String) (env : YtDlpEnv) :
    ∀ (bs : List String) (i : Nat), AcqTrace (tryDownloadWithBrowsers aPath env i bs).1 := by
  intro bs
  induction bs with
  | nil => intro i; exact acqTrace_tryFinalDownload aPath env
  | cons b rest ih =>
    intro i
    unfold tryDownloadWithBrowsers
    cases hpo : (env.attempt i).procOutcome with
    | error m => exact acqTrace_tokenEvents (env.attempt i)
    | ok code =>
      by_cases h0 : code = 0
      · by_cases hf : (env.attempt i).fileExists
        · simp only [h0, hf, if_true]
          exact acqTrace_append (acqTrace_tokenEvents (env.attempt i))
            (acqTrace_cons_progress 100 acqTrace_nil)
        · simp only [h0, hf, if_true, if_false, Bool.false_eq_true]
          exact acqTrace_append (acqTrace_tokenEvents (env.attempt i)) (ih (i + 1))
      · simp only [h0, if_false]
        exact acqTrace_append (acqTrace_tokenEvents (env.attempt i)) (ih (i + 1))

theorem acqTrace_downloadWithYtDlp (aPath : String) (env : YtDlpEnv) :
    AcqTrace (downloadWithYtDlp aPath env).1 := by
  unfold downloadWithYtDlp
  cases hb : tryDownloadWithBrowsers aPath env 0 (browserList env.isWindows) with
  | mk evs res =>
    have h := acqTrace_tryDownloadWithBrowsers aPath env (browserList env.isWindows) 0
    rw [hb] at h
    simp only [hb]
    exact acqTrace_cons_downloading h

theorem acqTrace_downloadWithYtdlCore (aPath : String) (env : CoreEnv) :
    AcqTrace (downloadWithYtdlCore aPath env).1 := by
  unfold downloadWithYtdlCore
  cases env.infoError with
  | some m => exact acqTrace_cons_downloading acqTrace_nil
  | none =>
    by_cases hfmt : env.hasAudioFormat
    · simp only [hfmt, Bool.not_true, Bool.false_eq_true, if_false]
      cases env.terminal with
      | streamErr m =>
        exact acqTrace_cons_downloading
          (acqTrace_map_progress _ (corePercents env.chunks (env.contentLength.getD 0) 0))
      | writeErr m =>
        exact acqTrace_cons_downloading
          (acqTrace_map_progress _ (corePercents env.chunks (env.contentLength.getD 0) 0))
      | finish =>
        by_cases hf : env.fileExists
        · simp only [hf, if_true]
          exact acqTrace_cons_downloading
            (acqTrace_append
              (acqTrace_map_progress _ (corePercents env.chunks (env.contentLength.getD 0) 0))
              (acqTrace_cons_progress 100 acqTrace_nil))
        · simp only [hf, if_true, if_false, Bool.false_eq_true]
          exact acqTrace_cons_downloading
            (acqTrace_map_progress _ (corePercents env.chunks (env.contentLength.getD 0) 0))
    · simp only [hfmt, Bool.not_false, if_true]
      exact acqTrace_cons_downloading acqTrace_nil

/-- Trace shape at the level of `downloadVideo`: strategy-invocation
markers may appear, but still no transcription progress and no status
other than `downloading`. -/
def AcqStage (l : List Event) : Prop :=
  transcriptionPercents l = [] ∧ ∀ s ∈ statusList l, s = Status.downloading

theorem AcqTrace.stage {l : List Event} (h : AcqTrace l) : AcqStage l :=
  ⟨h.2.1, h.2.2⟩

theorem acqStage_append {l1 l2 : List Event} (h1 : AcqStage l1) (h2 : AcqStage l2) :
    AcqStage (l1 ++ l2) := by
  refine ⟨?_, ?_⟩
  · rw [transcriptionPercents_append, h1.1, h2.1]; rfl
  · intro s hs
    rw [statusList_append] at hs
    rcases List.mem_append.mp hs with h | h
    · exact h1.2 s h
    · exact h2.2 s h

theorem acqStage_cons_call (n : String) {l : List Event} (h : AcqStage l) :
    AcqStage (Event.call n :: l) :=
  ⟨h.1, h.2⟩

/-- The whole acquisition chain's trace reports only download progress
and `downloading` statuses (besides the strategy markers). -/
theorem acqStage_downloadVideo (url aPath : String) (env : DownloadEnv) :
    AcqStage (downloadVideo url aPath env).1 := by
  unfold downloadVideo
  cases h1 : downloadSimple url aPath env.simple with
  | mk e1 r1 =>
    have a1 := (acqTrace_downloadSimple url aPath env.simple).stage
    rw [h1] at a1
    cases r1 with
    | ok u => exact acqStage_cons_call _ a1
    | error m1 =>
      cases h2 : downloadWithChromeCookies url aPath env.chrome with
      | mk e2 r2 =>
        have a2 := (acqTrace_downloadWithChromeCookies url aPath env.chrome).stage
        rw [h2] at a2
        cases r2 with
        | ok u =>
          exact acqStage_append (acqStage_cons_call _ a1) (acqStage_cons_call _ a2)
        | error m2 =>
          cases h3 : downloadWithYtDlp aPath env.ytdlp with
          | mk e3 r3 =>
            have a3 := (acqTrace_downloadWithYtDlp aPath env.ytdlp).stage
            rw [h3] at a3
            cases r3 with
            | ok u =>
              exact acqStage_append
                (acqStage_append (acqStage_cons_call _ a1) (acqStage_cons_call _ a2))
                (acqStage_cons_call _ a3)
            | error m3 =>
              cases h4 : downloadWithYtdlCore aPath env.core with
              | mk e4 r4 =>
                have a4 := (acqTrace_downloadWithYtdlCore aPath env.core).stage
                rw [h4] at a4
                cases r4 with
                | ok u =>
                  exact acqStage_append (acqStage_append
                    (acqStage_append (acqStage_cons_call _ a1) (acqStage_cons_call _ a2))
                    (acqStage_cons_call _ a3)) (acqStage_cons_call _ a4)
                | error m4 =>
                  exact acqStage_append (acqStage_append
                    (acqStage_append (acqStage_cons_call _ a1) (acqStage_cons_call _ a2))
                    (acqStage_cons_call _ a3)) (acqStage_cons_call _ a4)

/-! ## A successful acquisition always ends by reporting 100% -/

theorem downloadSimple_ok_last (url aPath : String) (r : SimpleRun)
    (h : (downloadSimple url aPath r).2 = .ok ()) :
    ∃ l, (downloadSimple url aPath r).1 = l ++ [Event.progress .download 100] := by
  unfold downloadSimple at h ⊢
  rcases hv : extractVideoId url with - | v <;> rw [hv] at h
  · simp at h
  · by_cases h0 : r.exitCode = 0
    · by_cases hf : r.fileExists
      · simp only [h0, hf, if_true]
        exact ⟨simpleTokenEvents r, rfl⟩
      · simp [h0, hf] at h
    · simp [h0] at h

theorem downloadWithChromeCookies_ok_last (url aPath : String) (env : ChromeEnv)
    (h : (downloadWithChromeCookies url aPath env).2 = .ok ()) :
    ∃ l, (downloadWithChromeCookies url aPath env).1 =
      l ++ [Event.progress .download 100] := by
  unfold downloadWithChromeCookies at h ⊢
  rcases hse : env.setupError with - | m <;> rw [hse] at h
  · rcases hv : extractVideoId url with - | v <;> rw [hv] at h
    · simp at h
    · rcases hpo : env.dlp.procOutcome with m | code <;> rw [hpo] at h
      · simp at h
      · by_cases h0 : code = 0
        · by_cases hf : env.dlp.fileExists
          · simp only [h0, hf, if_true]
            exact ⟨tokenEvents env.dlp, rfl⟩
          · simp [h0, hf] at h
        · simp [h0] at h
  · simp at h

theorem downloadWithYtDlpAlternative_ok_last (aPath : String) (r : ProcRun)
    (h : (downloadWithYtDlpAlternative aPath r).2 = .ok ()) :
    ∃ l, (downloadWithYtDlpAlternative aPath r).1 =
      l ++ [Event.progress .download 100] := by
  unfold downloadWithYtDlpAlternative at h ⊢
  rcases hpo : r.procOutcome with m | code <;> rw [hpo] at h
  · simp at h
  · by_cases h0 : code = 0
    · by_cases hf : r.fileExists
      · simp only [h0, hf, if_true]
        exact ⟨Event.status .downloading none none :: tokenEvents r, rfl⟩
      · simp [h0, hf] at h
    · simp [h0] at h

theorem tryFinalDownload_ok_last (aPath : String) (env : YtDlpEnv)
    (h : (tryFinalDownload aPath env).2 = .ok ()) :
    ∃ l, (tryFinalDownload aPath env).1 = l ++ [Event.progress .download 100] := by
  unfold tryFinalDownload at h ⊢
  rcases hpo : env.final.procOutcome with m | code <;> rw [hpo] at h
  · obtain ⟨l, hl⟩ := downloadWithYtDlpAlternative_ok_last aPath env.alt h
    exact ⟨tokenEvents env.final ++ l, by rw [hl, List.append_assoc]⟩
  · by_cases h0 : code = 0
    · by_cases hf : env.final.fileExists
      · simp only [h0, hf, if_true]
        exact ⟨tokenEvents env.final, rfl⟩
      · simp only [h0, hf, if_true, if_false, Bool.false_eq_true] at h ⊢
        obtain ⟨l, hl⟩ := downloadWithYtDlpAlternative_ok_last aPath env.alt h
        exact ⟨tokenEvents env.final ++ l, by rw [hl, List.append_assoc]⟩
    · simp only [h0, if_false] at h ⊢
      obtain ⟨l, hl⟩ := downloadWithYtDlpAlternative_ok_last aPath env.alt h
      exact ⟨tokenEvents env.final ++ l, by rw [hl, List.append_assoc]⟩

theorem tryDownloadWithBrowsers_ok_last (aPath : String) (env : YtDlpEnv) :
    ∀ (bs : List String) (i : Nat),
      (tryDownloadWithBrowsers aPath env i bs).2 = .ok () →
      ∃ l, (tryDownloadWithBrowsers aPath env i bs).1 =
        l ++ [Event.progress .download 100] := by
  intro bs
  induction bs with
  | nil => intro i h; exact tryFinalDownload_ok_last aPath env h
  | cons b rest ih =>
    intro i h
    unfold tryDownloadWithBrowsers at h ⊢
    rcases hpo : (env.attempt i).procOutcome with m | code <;> rw [hpo] at h
    · simp at h
    · by_cases h0 : code = 0
      · by_cases hf : (env.attempt i).fileExists
        · simp only [h0, hf, if_true]
          exact ⟨tokenEvents (env.attempt i), rfl⟩
        · simp only [h0, hf, if_true, if_false, Bool.false_eq_true] at h ⊢
          obtain ⟨l, hl⟩ := ih (i + 1) h
          exact ⟨tokenEvents (env.attempt i) ++ l, by rw [hl, List.append_assoc]⟩
      · simp only [h0, if_false] at h ⊢
        obtain ⟨l, hl⟩ := ih (i + 1) h
        exact ⟨tokenEvents (env.attempt i) ++ l, by rw [hl, List.append_assoc]⟩

theorem downloadWithYtDlp_ok_last (aPath : String) (env : YtDlpEnv)
    (h : (downloadWithYtDlp aPath env).2 = .ok ()) :
    ∃ l, (downloadWithYtDlp aPath env).1 = l ++ [Event.progress .download 100] := by
  unfold downloadWithYtDlp at h ⊢
  cases hb : tryDownloadWithBrowsers aPath env 0 (browserList env.isWindows) with
  | mk evs res =>
    obtain ⟨l, hl⟩ := tryDownloadWithBrowsers_ok_last aPath env (browserList env.isWindows) 0
      (by rw [hb] at h ⊢; exact h)
    rw [hb] at hl
    have hl' : evs = l ++ [Event.progress .download 100] := hl
    refine ⟨Event.status .downloading none none :: l, ?_⟩
    show Event.status .downloading none none :: evs = _
    rw [hl']
    rfl

theorem downloadWithYtdlCore_ok_last (aPath : String) (env : CoreEnv)
    (h : (downloadWithYtdlCore aPath env).2 = .ok ()) :
    ∃ l, (downloadWithYtdlCore aPath env).1 = l ++ [Event.progress .download 100] := by
  unfold downloadWithYtdlCore at h ⊢
  rcases hie : env.infoError with - | m <;> rw [hie] at h
  · by_cases hfmt : env.hasAudioFormat
    · simp only [hfmt, Bool.not_true, Bool.false_eq_true, if_false] at h ⊢
      rcases hterm : env.terminal with - | m | m <;> rw [hterm] at h
      · by_cases hf : env.fileExists
        · simp only [hf, if_true]
          exact ⟨Event.status .downloading none none ::
            (corePercents env.chunks (env.contentLength.getD 0) 0).map
              (fun p => Event.progress .download (Nat.cast p)), rfl⟩
        · simp [hf] at h
      · simp at h
      · simp at h
    · simp [hfmt] at h
  · simp at h

/-- A successful run of the whole chain ends with the 100% acquisition
report. -/
theorem downloadVideo_ok_last (url aPath : String) (env : DownloadEnv)
    (h : (downloadVideo url aPath env).2 = .ok ()) :
    ∃ l, (downloadVideo url aPath env).1 = l ++ [Event.progress .download 100] := by
  unfold downloadVideo at h ⊢
  cases h1 : downloadSimple url aPath env.simple with
  | mk e1 r1 =>
    cases r1 with
    | ok u =>
      cases u
      obtain ⟨l, hl⟩ := downloadSimple_ok_last url aPath env.simple (by rw [h1])
      rw [h1] at hl
      have hl1 : e1 = l ++ [Event.progress .download 100] := hl
      exact ⟨Event.call "downloadSimple" :: l, by simp [h1, hl1]⟩
    | error m1 =>
      cases h2 : downloadWithChromeCookies url aPath env.chrome with
      | mk e2 r2 =>
        cases r2 with
        | ok u =>
          cases u
          obtain ⟨l, hl⟩ := downloadWithChromeCookies_ok_last url aPath env.chrome (by rw [h2])
          rw [h2] at hl
          have hl2 : e2 = l ++ [Event.progress .download 100] := hl
          exact ⟨(Event.call "downloadSimple" :: e1) ++
            (Event.call "downloadWithChromeCookies" :: l), by simp [h1, h2, hl2]⟩
        | error m2 =>
          cases h3 : downloadWithYtDlp aPath env.ytdlp with
          | mk e3 r3 =>
            cases r3 with
            | ok u =>
              cases u
              obtain ⟨l, hl⟩ := downloadWithYtDlp_ok_last aPath env.ytdlp (by rw [h3])
              rw [h3] at hl
              have hl3 : e3 = l ++ [Event.progress .download 100] := hl
              exact ⟨(Event.call "downloadSimple" :: e1) ++
                (Event.call "downloadWithChromeCookies" :: e2) ++
                (Event.call "downloadWithYtDlp" :: l), by simp [h1, h2, h3, hl3]⟩
            | error m3 =>
              cases h4 : downloadWithYtdlCore aPath env.core with
              | mk e4 r4 =>
                cases r4 with
                | ok u =>
                  cases u
                  obtain ⟨l, hl⟩ := downloadWithYtdlCore_ok_last aPath env.core (by rw [h4])
                  rw [h4] at hl
                  have hl4 : e4 = l ++ [Event.progress .download 100] := hl
                  exact ⟨(Event.call "downloadSimple" :: e1) ++
                    (Event.call "downloadWithChromeCookies" :: e2) ++
                    (Event.call "downloadWithYtDlp" :: e3) ++
                    (Event.call "downloadWithYtdlCore" :: l), by simp [h1, h2, h3, h4, hl4]⟩
                | error m4 => simp [h1, h2, h3, h4] at h

/-! ## Status structure of the transcription stage -/

theorem statusList_pollLoop (polls : List PollResp) (last : Rat) :
    statusList (pollLoop polls last).1 = [] := by
  induction polls generalizing last with
  | nil => rfl
  | cons r rest ih =>
    cases r with
    | completed t => rfl
    | errorStatus m => rw [pollLoop_cons_errorStatus]; exact ih last
    | requestFailure m => rw [pollLoop_cons_requestFailure]; exact ih last
    | processing p =>
      rw [pollLoop_cons_processing]
      by_cases hd : abs (p - last) > 5
      · rw [if_pos hd]; exact ih p
      · rw [if_neg hd]; exact ih last

/-- The transcription stage broadcasts exactly one status: `transcribing`
at its start. -/
theorem statusList_transcribeAudio (ae : Bool) (aP tP sP vt vu iso : String)
    (env : TranscribeEnv) :
    statusList (transcribeAudio ae aP tP sP vt vu iso env).1 = [Status.transcribing] := by
  unfold transcribeAudio
  cases hu : uploadAudio ae aP env.uploadResult with
  | error m => rfl
  | ok u =>
    cases hs : env.submitResult with
    | error m => rfl
    | ok rid =>
      cases hp : pollLoop env.polls 0 with
      | mk pe pres =>
        have hsl' : statusList pe = [] := by
          have hx := statusList_pollLoop env.polls 0
          rw [hp] at hx
          exact hx
        cases pres with
        | none =>
          simp [statusList, List.filterMap_append, hsl']
          exact fun a ha => List.forall_none_of_filterMap_eq_nil hsl' a ha
        | some t =>
          cases hsv : env.saveError with
          | some m =>
            simp [statusList, List.filterMap_append, saveTranscript, hsl']
            exact fun a ha => List.forall_none_of_filterMap_eq_nil hsl' a ha
          | none =>
            simp [statusList, List.filterMap_append, saveTranscript, hsl']
            exact fun a ha => List.forall_none_of_filterMap_eq_nil hsl' a ha

/-- The transcription stage never emits acquisition progress. -/
theorem downloadPercents_pollLoop (polls : List PollResp) (last : Rat) :
    downloadPercents (pollLoop polls last).1 = [] := by
  induction polls generalizing last with
  | nil => rfl
  | cons r rest ih =>
    cases r with
    | completed t => rfl
    | errorStatus m => rw [pollLoop_cons_errorStatus]; exact ih last
    | requestFailure m => rw [pollLoop_cons_requestFailure]; exact ih last
    | processing p =>
      rw [pollLoop_cons_processing]
      by_cases hd : abs (p - last) > 5
      · rw [if_pos hd]; exact ih p
      · rw [if_neg hd]; exact ih last

/-! ## Monotone status ranks -/

theorem chain'_of_const (c : Nat) (l : List Nat) (h : ∀ x ∈ l, x = c) :
    List.Chain' (· ≤ ·) l := by
  induction l with
  | nil => simp
  | cons a r ih =>
    rw [List.chain'_cons']
    refine ⟨fun y hy => ?_, ih (fun x hx => h x (List.mem_cons_of_mem _ hx))⟩
    rw [h a (List.mem_cons_self _ _), h y (List.mem_cons_of_mem _ (List.mem_of_mem_head? hy))]

theorem chain'_const_append (c : Nat) (l : List Nat) (h : ∀ x ∈ l, x = c)
    (tail : List Nat) (htail : List.Chain' (· ≤ ·) tail)
    (hhead : ∀ y ∈ tail.head?, c ≤ y) :
    List.Chain' (· ≤ ·) (l ++ tail) := by
  rw [List.chain'_append]
  refine ⟨chain'_of_const c l h, htail, fun x hx y hy => ?_⟩
  rw [h x (List.mem_of_mem_getLast? hx)]
  exact hhead y hy

/-! ## Claim C4 — strategy chain order, short-circuit, exhaustion -/

/-- The outcomes the four strategies would report, in chain order. -/
def strategyResults (url aPath : String) (env : DownloadEnv) : List (Except String Unit) :=
  [(downloadSimple url aPath env.simple).2,
   (downloadWithChromeCookies url aPath env.chrome).2,
   (downloadWithYtDlp aPath env.ytdlp).2,
   (downloadWithYtdlCore aPath env.core).2]

/-- Number of strategies a short-circuiting chain runs: everything up to
and including the first success, or all of them. -/
def firstOkCount : List (Except String Unit) → Nat
  | [] => 0
  | .ok _ :: _ => 1
  | .error _ :: r => 1 + firstOkCount r

/-- Spec-side chain outcome: the first success wins and earlier failures
are discarded; only when every strategy fails does the chain raise, with
the last strategy's message wrapped in the exhaustion text. -/
def chainResult : List (Except String Unit) → Except String Unit
  | [] => .ok ()
  | [.error m] => .error ("Não foi possível baixar o vídeo após múltiplas tentativas: " ++ m)
  | .ok _ :: _ => .ok ()
  | .error _ :: r => chainResult r

theorem strategyCalls_cons_strategy (n : String) (l : List Event) (hn : n ∈ strategyNames) :
    strategyCalls (Event.call n :: l) = n :: strategyCalls l := by
  unfold strategyCalls
  rw [List.filterMap_cons]
  simp [hn]

/-- An acquisition environment whose first strategy fails and whose
second succeeds. -/
def failThenSucceedEnv : DownloadEnv :=
  { exampleDownloadEnv with simple := ⟨[], 1, false⟩ }

/-- Claim C4: the strategies run strictly in their fixed order and the
chain stops at the first that succeeds (the invocation list is exactly
the name-list prefix up to and including the first success — in
particular, with outcomes `[Fail, Succeed, Fail, Fail]` only the first
two strategies are invoked); failures of earlier strategies never reach
the chain's result, and only exhaustion of all four strategies raises,
with the exhaustion message carrying the last strategy's error text. -/
theorem acquisitionChain (url aPath : String) (env : DownloadEnv) :
    strategyCalls (downloadVideo url aPath env).1 =
      strategyNames.take (firstOkCount (strategyResults url aPath env)) ∧
    (downloadVideo url aPath env).2 = chainResult (strategyResults url aPath env) ∧
    strategyCalls (downloadVideo "https://youtu.be/dQw4w9WgXcQ" "audios/a.mp3"
      failThenSucceedEnv).1 = ["downloadSimple", "downloadWithChromeCookies"] := by
  have hns : "downloadSimple" ∈ strategyNames := by decide
  have hnc : "downloadWithChromeCookies" ∈ strategyNames := by decide
  have hny : "downloadWithYtDlp" ∈ strategyNames := by decide
  have hnk : "downloadWithYtdlCore" ∈ strategyNames := by decide
  refine ⟨?_, ?_, by decide⟩ <;>
  · unfold downloadVideo strategyResults
    cases h1 : downloadSimple url aPath env.simple with
    | mk e1 r1 =>
      have a1 : strategyCalls e1 = [] := by
        have hx := (acqTrace_downloadSimple url aPath env.simple).1
        rw [h1] at hx
        exact hx
      cases r1 with
      | ok u =>
        first
        | (show strategyCalls (Event.call "downloadSimple" :: e1) = ["downloadSimple"]
           rw [strategyCalls_cons_strategy _ _ hns, a1])
        | rfl
      | error m1 =>
        cases h2 : downloadWithChromeCookies url aPath env.chrome with
        | mk e2 r2 =>
          have a2 : strategyCalls e2 = [] := by
            have hx := (acqTrace_downloadWithChromeCookies url aPath env.chrome).1
            rw [h2] at hx
            exact hx
          cases r2 with
          | ok u =>
            first
            | (show strategyCalls ((Event.call "downloadSimple" :: e1) ++
                  (Event.call "downloadWithChromeCookies" :: e2)) =
                ["downloadSimple", "downloadWithChromeCookies"]
               rw [strategyCalls_append, strategyCalls_cons_strategy _ _ hns,
                 strategyCalls_cons_strategy _ _ hnc, a1, a2]
               rfl)
            | rfl
          | error m2 =>
            cases h3 : downloadWithYtDlp aPath env.ytdlp with
            | mk e3 r3 =>
              have a3 : strategyCalls e3 = [] := by
                have hx := (acqTrace_downloadWithYtDlp aPath env.ytdlp).1
                rw [h3] at hx
                exact hx
              cases r3 with
              | ok u =>
                first
                | (show strategyCalls (((Event.call "downloadSimple" :: e1) ++
                      (Event.call "downloadWithChromeCookies" :: e2)) ++
                      (Event.call "downloadWithYtDlp" :: e3)) =
                    ["downloadSimple", "downloadWithChromeCookies", "downloadWithYtDlp"]
                   rw [strategyCalls_append, strategyCalls_append,
                     strategyCalls_cons_strategy _ _ hns, strategyCalls_cons_strategy _ _ hnc,
                     strategyCalls_cons_strategy _ _ hny, a1, a2, a3]
                   rfl)
                | rfl
              | error m3 =>
                cases h4 : downloadWithYtdlCore aPath env.core with
                | mk e4 r4 =>
                  have a4 : strategyCalls e4 = [] := by
                    have hx := (acqTrace_downloadWithYtdlCore aPath env.core).1
                    rw [h4] at hx
                    exact hx
                  cases r4 with
                  | ok u =>
                    first
                    | (show strategyCalls ((((Event.call "downloadSimple" :: e1) ++
                          (Event.call "downloadWithChromeCookies" :: e2)) ++
                          (Event.call "downloadWithYtDlp" :: e3)) ++
                          (Event.call "downloadWithYtdlCore" :: e4)) =
                        ["downloadSimple", "downloadWithChromeCookies", "downloadWithYtDlp",
                          "downloadWithYtdlCore"]
                       rw [strategyCalls_append, strategyCalls_append, strategyCalls_append,
                         strategyCalls_cons_strategy _ _ hns, strategyCalls_cons_strategy _ _ hnc,
                         strategyCalls_cons_strategy _ _ hny, strategyCalls_cons_strategy _ _ hnk,
                         a1, a2, a3, a4]
                       rfl)
                    | rfl
                  | error m4 =>
                    first
                    | (show strategyCalls ((((Event.call "downloadSimple" :: e1) ++
                          (Event.call "downloadWithChromeCookies" :: e2)) ++
                          (Event.call "downloadWithYtDlp" :: e3)) ++
                          (Event.call "downloadWithYtdlCore" :: e4)) =
                        ["downloadSimple", "downloadWithChromeCookies", "downloadWithYtDlp",
                          "downloadWithYtdlCore"]
                       rw [strategyCalls_append, strategyCalls_append, strategyCalls_append,
                         strategyCalls_cons_strategy _ _ hns, strategyCalls_cons_strategy _ _ hnc,
                         strategyCalls_cons_strategy _ _ hny, strategyCalls_cons_strategy _ _ hnk,
                         a1, a2, a3, a4]
                       rfl)
                    | rfl

/-! ## Claim C3 — progress and status monotonicity -/

/-- Acquisition environment for the progress-regression counterexample:
the first strategy reports 50% and then exits nonzero; the fallback
strategy restarts, reports 10% and succeeds. -/
def regressEnv : DownloadEnv :=
  { exampleDownloadEnv with
      simple := ⟨[50], 1, false⟩
      chrome := ⟨none, ⟨[10], .ok 0, true⟩⟩ }

/-- Claim C3 as stated is false at a concrete input: when the first
acquisition strategy reaches 50% and fails and the fallback restarts
from 10%, the broadcast acquisition-progress sequence is `[50, 10, 100]`
— not monotonically non-decreasing within the acquisition stage. -/
theorem progressMonotone_counterexample :
    downloadPercents (downloadVideo "https://youtu.be/dQw4w9WgXcQ" "audios/a.mp3"
      regressEnv).1 = [50, 10, 100] ∧
    ¬ List.Chain' (· ≤ ·) (downloadPercents (downloadVideo "https://youtu.be/dQw4w9WgXcQ"
      "audios/a.mp3" regressEnv).1) := by
  constructor
  · decide
  · intro h
    rw [show downloadPercents (downloadVideo "https://youtu.be/dQw4w9WgXcQ" "audios/a.mp3"
      regressEnv).1 = [50, 10, 100] by decide] at h
    have h50 : (50 : Rat) ≤ 10 := (List.chain'_cons.mp h).1
    norm_num at h50

/-- Claim C3 as amended: progress percentages are forwarded verbatim
from the external tools, so acquisition progress can regress when a
later strategy restarts (and a transcription change of more than 5 in
either direction is applied as reported); what does hold is that the
broadcast status ranks never regress over the whole job lifetime, that
the acquisition stage never emits transcription progress, and that a
successful acquisition always ends by broadcasting 100 — so
transcription progress begins only after acquisition reported 100. -/
theorem statusMonotoneAndStageOrder :
    (∀ (url : String) (env : ProcEnv),
      List.Chain' (· ≤ ·) ((statusList (processVideo url env).1).map statusRank)) ∧
    (∀ (url aPath : String) (denv : DownloadEnv),
      transcriptionPercents (downloadVideo url aPath denv).1 = []) ∧
    (∀ (url aPath : String) (denv : DownloadEnv),
      (downloadVideo url aPath denv).2 = .ok () →
        (downloadVideo url aPath denv).1.getLast? = some (Event.progress .download 100)) := by
  refine ⟨?_, fun url aPath denv => (acqStage_downloadVideo url aPath denv).1, ?_⟩
  · intro url env
    unfold processVideo
    cases hv : extractVideoId url with
    | none => simp [statusList, statusRank]
    | some vid =>
      dsimp only
      by_cases hex : env.transcriptExists = true
      · simp [hex, statusList, statusRank]
      · rw [if_neg hex]
        cases hd : downloadVideo url (audioPathOf (videoTitle vid env.timestamp)) env.download with
        | mk de dres =>
          have hde : ∀ s ∈ statusList de, s = Status.downloading := by
            have hx := (acqStage_downloadVideo url
              (audioPathOf (videoTitle vid env.timestamp)) env.download).2
            rw [hd] at hx
            exact hx
          have hde1 : ∀ x ∈ (statusList de).map statusRank, x = 1 := by
            intro x hx
            rcases List.mem_map.mp hx with ⟨s, hs, rfl⟩
            rw [hde s hs]
            rfl
          cases dres with
          | error m =>
            simp only [statusList_append, List.map_append]
            refine chain'_const_append 1 _ hde1 _ ?_ ?_
            · simp [statusList, statusRank]
            · intro y hy
              simp [statusList, statusRank] at hy
              omega
          | ok u =>
            by_cases hau : env.audioExistsAfterDownload = true
            · simp only [hau, Bool.not_true, Bool.false_eq_true, if_false]
              cases ht : transcribeAudio true (audioPathOf (videoTitle vid env.timestamp))
                  (transcriptPathOf (videoTitle vid env.timestamp))
                  (simplePathOf (videoTitle vid env.timestamp))
                  (videoTitle vid env.timestamp) url env.nowIso env.transcribe with
              | mk te tres =>
                have hte : statusList te = [Status.transcribing] := by
                  have hx := statusList_transcribeAudio true
                    (audioPathOf (videoTitle vid env.timestamp))
                    (transcriptPathOf (videoTitle vid env.timestamp))
                    (simplePathOf (videoTitle vid env.timestamp))
                    (videoTitle vid env.timestamp) url env.nowIso env.transcribe
                  rw [ht] at hx
                  exact hx
                cases tres with
                | running =>
                  have hsl : statusList (de ++ te) =
                      statusList de ++ [Status.transcribing] := by
                    rw [statusList_append, hte]
                  rw [hsl, List.map_append]
                  refine chain'_const_append 1 _ hde1 _ ?_ ?_
                  · simp [statusRank, List.chain'_cons, List.chain'_singleton]
                  · intro y hy
                    simp [statusRank] at hy
                    omega
                | failure m =>
                  have hsl : statusList (de ++ te ++
                      [Event.status Status.error (some m) none]) =
                      statusList de ++ [Status.transcribing, Status.error] := by
                    rw [List.append_assoc, statusList_append, statusList_append, hte]
                    rfl
                  rw [hsl, List.map_append]
                  refine chain'_const_append 1 _ hde1 _ ?_ ?_
                  · simp [statusRank, List.chain'_cons, List.chain'_singleton]
                  · intro y hy
                    simp [statusRank] at hy
                    omega
                | success =>
                  cases hul : env.unlinkError with
                  | none =>
                    have hsl : statusList (de ++ te ++
                        [Event.status Status.completed none
                          (some (transcriptPathOf (videoTitle vid env.timestamp),
                            simplePathOf (videoTitle vid env.timestamp)))]) =
                        statusList de ++ [Status.transcribing, Status.completed] := by
                      rw [List.append_assoc, statusList_append, statusList_append, hte]
                      rfl
                    rw [hsl, List.map_append]
                    refine chain'_const_append 1 _ hde1 _ ?_ ?_
                    · simp [statusRank, List.chain'_cons, List.chain'_singleton]
                    · intro y hy
                      simp [statusRank] at hy
                      omega
                  | some m =>
                    have hsl : statusList (de ++ te ++
                        [Event.status Status.completed none
                          (some (transcriptPathOf (videoTitle vid env.timestamp),
                            simplePathOf (videoTitle vid env.timestamp))),
                         Event.status Status.error (some m) none]) =
                        statusList de ++
                          [Status.transcribing, Status.completed, Status.error] := by
                      rw [List.append_assoc, statusList_append, statusList_append, hte]
                      rfl
                    rw [hsl, List.map_append]
                    refine chain'_const_append 1 _ hde1 _ ?_ ?_
                    · simp [statusRank, List.chain'_cons, List.chain'_singleton]
                    · intro y hy
                      simp [statusRank] at hy
                      omega
            · have hx : env.audioExistsAfterDownload = false := by
                revert hau
                cases env.audioExistsAfterDownload <;> simp
              simp only [hx, Bool.not_false, if_true]
              simp only [statusList_append, List.map_append]
              refine chain'_const_append 1 _ hde1 _ ?_ ?_
              · simp [statusList, statusRank]
              · intro y hy
                simp [statusList, statusRank] at hy
                omega
  · intro url aPath denv h
    obtain ⟨l, hl⟩ := downloadVideo_ok_last url aPath denv h
    rw [hl]
    exact List.getLast?_concat _

/-- Witness for C3 (amended): a concrete successful acquisition whose
trace ends with the 100% report. -/
theorem statusMonotoneAndStageOrder_witness :
    (downloadVideo "https://youtu.be/dQw4w9WgXcQ" "audios/a.mp3" exampleDownloadEnv).1.getLast? =
      some (Event.progress .download 100) :=
  statusMonotoneAndStageOrder.2.2 "https://youtu.be/dQw4w9WgXcQ" "audios/a.mp3"
    exampleDownloadEnv rfl

/-! ## Claim C6 — completion, persistence and the non-best-effort cleanup -/

theorem writesOf_append (l1 l2 : List Event) :
    writesOf (l1 ++ l2) = writesOf l1 ++ writesOf l2 := by
  simp [writesOf, List.filterMap_append]

theorem writesOf_pollLoop (polls : List PollResp) (last : Rat) :
    writesOf (pollLoop polls last).1 = [] := by
  induction polls generalizing last with
  | nil => rfl
  | cons r rest ih =>
    cases r with
    | completed t => rfl
    | errorStatus m => rw [pollLoop_cons_errorStatus]; exact ih last
    | requestFailure m => rw [pollLoop_cons_requestFailure]; exact ih last
    | processing p =>
      rw [pollLoop_cons_processing]
      by_cases hd : abs (p - last) > 5
      · rw [if_pos hd]; exact ih p
      · rw [if_neg hd]; exact ih last

/-- A successful transcription stage writes exactly the full document
and the speaker document, in that order. -/
theorem transcribeAudio_success_writes (ae : Bool) (aP tP sP vt vu iso : String)
    (env : TranscribeEnv)
    (h : (transcribeAudio ae aP tP sP vt vu iso env).2 = .success) :
    writesOf (transcribeAudio ae aP tP sP vt vu iso env).1 = [tP, sP] := by
  unfold transcribeAudio at h ⊢
  cases hu : uploadAudio ae aP env.uploadResult with
  | error m => rw [hu] at h; simp at h
  | ok u =>
    rw [hu] at h
    cases hs : env.submitResult with
    | error m => rw [hs] at h; simp at h
    | ok rid =>
      rw [hs] at h
      cases hp : pollLoop env.polls 0 with
      | mk pe pres =>
        rw [hp] at h
        have hw : writesOf pe = [] := by
          have hx := writesOf_pollLoop env.polls 0
          rw [hp] at hx
          exact hx
        cases pres with
        | none => simp at h
        | some t =>
          cases hsv : env.saveError with
          | some m => rw [hsv] at h; simp [saveTranscript] at h
          | none =>
            show writesOf ([Event.status Status.transcribing none none,
                Event.call "uploadAudio", Event.call "startTranscriptionJob"] ++ pe ++
                [Event.write tP (fullTranscriptDoc t vt vu iso),
                 Event.write sP (formatUtterances t)]) = [tP, sP]
            rw [writesOf_append, writesOf_append, hw]
            rfl

/-- Full-pipeline environment in which everything succeeds but the
final audio-file removal throws. -/
def unlinkFailEnv : ProcEnv :=
  { exampleProcEnv with unlinkError := some "EACCES: permission denied, unlink" }

/-- Claim C6 as stated is false at a concrete input: with both documents
persisted and the job already broadcast as Completed, a failing
`fs.unlinkSync` does not leave the job Completed — the catch-all
overwrites the status with `error` and records the unlink message. -/
theorem cleanupEscalation_counterexample :
    (processVideo "https://youtu.be/dQw4w9WgXcQ" unlinkFailEnv).2 =
      .failure "EACCES: permission denied, unlink" ∧
    Status.completed ∈
      statusList (processVideo "https://youtu.be/dQw4w9WgXcQ" unlinkFailEnv).1 ∧
    (statusList (processVideo "https://youtu.be/dQw4w9WgXcQ" unlinkFailEnv).1).getLast? =
      some Status.error ∧
    ¬ (statusList (processVideo "https://youtu.be/dQw4w9WgXcQ" unlinkFailEnv).1).getLast? =
      some Status.completed := by
  refine ⟨by decide, by decide, by decide, by decide⟩

/-- Claim C6 as amended: when the transcription stage succeeds the
orchestrator persists exactly the two formatted documents, broadcasts
`Completed` with their paths, and then removes the audio artifact — but
the removal is *not* best-effort: when the unlink succeeds the job ends
`Completed`; when it throws, the failure escalates to the catch-all,
which appends an `error` broadcast carrying the unlink message after
the `Completed` one, and the task records the failure. -/
theorem completionAndCleanup (url : String) (env : ProcEnv) (vid : String)
    (hv : extractVideoId url = some vid)
    (hex : env.transcriptExists = false)
    (hdl : (downloadVideo url (audioPathOf (videoTitle vid env.timestamp)) env.download).2 =
      .ok ())
    (hau : env.audioExistsAfterDownload = true)
    (hts : (transcribeAudio true (audioPathOf (videoTitle vid env.timestamp))
      (transcriptPathOf (videoTitle vid env.timestamp))
      (simplePathOf (videoTitle vid env.timestamp))
      (videoTitle vid env.timestamp) url env.nowIso env.transcribe).2 = .success) :
    writesOf (transcribeAudio true (audioPathOf (videoTitle vid env.timestamp))
      (transcriptPathOf (videoTitle vid env.timestamp))
      (simplePathOf (videoTitle vid env.timestamp))
      (videoTitle vid env.timestamp) url env.nowIso env.transcribe).1 =
      [transcriptPathOf (videoTitle vid env.timestamp),
       simplePathOf (videoTitle vid env.timestamp)] ∧
    Event.status .completed none (some (transcriptPathOf (videoTitle vid env.timestamp),
      simplePathOf (videoTitle vid env.timestamp))) ∈ (processVideo url env).1 ∧
    (env.unlinkError = none → (processVideo url env).2 = .success ∧
      (statusList (processVideo url env).1).getLast? = some Status.completed) ∧
    (∀ m, env.unlinkError = some m → (processVideo url env).2 = .failure m ∧
      (statusList (processVideo url env).1).getLast? = some Status.error) := by
  refine ⟨transcribeAudio_success_writes _ _ _ _ _ _ _ _ hts, ?_⟩
  unfold processVideo
  rw [hv]
  dsimp only
  rw [if_neg (by rw [hex]; exact Bool.false_ne_true)]
  cases hd : downloadVideo url (audioPathOf (videoTitle vid env.timestamp)) env.download with
  | mk de dres =>
    rw [hd] at hdl
    have hdres : dres = Except.ok () := hdl
    subst hdres
    rw [show (!env.audioExistsAfterDownload) = false by rw [hau]; rfl]
    simp only [Bool.false_eq_true, if_false]
    cases ht : transcribeAudio true (audioPathOf (videoTitle vid env.timestamp))
        (transcriptPathOf (videoTitle vid env.timestamp))
        (simplePathOf (videoTitle vid env.timestamp))
        (videoTitle vid env.timestamp) url env.nowIso env.transcribe with
    | mk te tres =>
      rw [ht] at hts
      have htres : tres = RunResult.success := hts
      subst htres
      have hte : statusList te = [Status.transcribing] := by
        have hx := statusList_transcribeAudio true
          (audioPathOf (videoTitle vid env.timestamp))
          (transcriptPathOf (videoTitle vid env.timestamp))
          (simplePathOf (videoTitle vid env.timestamp))
          (videoTitle vid env.timestamp) url env.nowIso env.transcribe
        rw [ht] at hx
        exact hx
      cases hul : env.unlinkError with
      | none =>
        refine ⟨?_, fun _ => ⟨rfl, ?_⟩, fun m hm => by simp at hm⟩
        · show Event.status .completed none
            (some (transcriptPathOf (videoTitle vid env.timestamp),
              simplePathOf (videoTitle vid env.timestamp))) ∈
            de ++ te ++ [Event.status Status.completed none
              (some (transcriptPathOf (videoTitle vid env.timestamp),
                simplePathOf (videoTitle vid env.timestamp)))]
          simp
        · show (statusList (de ++ te ++ [Event.status Status.completed none
            (some (transcriptPathOf (videoTitle vid env.timestamp),
              simplePathOf (videoTitle vid env.timestamp)))])).getLast? =
            some Status.completed
          rw [statusList_append,
            show statusList [Event.status Status.completed none
              (some (transcriptPathOf (videoTitle vid env.timestamp),
                simplePathOf (videoTitle vid env.timestamp)))] = [Status.completed] from rfl,
            List.getLast?_concat]
      | some m =>
        refine ⟨?_, fun hn => by simp at hn, fun m' hm' => ?_⟩
        · show Event.status .completed none
            (some (transcriptPathOf (videoTitle vid env.timestamp),
              simplePathOf (videoTitle vid env.timestamp))) ∈
            de ++ te ++ [Event.status Status.completed none
              (some (transcriptPathOf (videoTitle vid env.timestamp),
                simplePathOf (videoTitle vid env.timestamp))),
              Event.status Status.error (some m) none]
          simp
        · have hmm : m' = m := by
            have := hm'.symm
            simpa using this
          subst hmm
          refine ⟨rfl, ?_⟩
          show (statusList (de ++ te ++ [Event.status Status.completed none
            (some (transcriptPathOf (videoTitle vid env.timestamp),
              simplePathOf (videoTitle vid env.timestamp))),
            Event.status Status.error (some m') none])).getLast? = some Status.error
          rw [statusList_append,
            show statusList [Event.status Status.completed none
              (some (transcriptPathOf (videoTitle vid env.timestamp),
                simplePathOf (videoTitle vid env.timestamp))),
              Event.status Status.error (some m') none] =
              [Status.completed] ++ [Status.error] from rfl,
            ← List.append_assoc, List.getLast?_concat]

/-- Witness for C6 (amended): the all-succeeding concrete pipeline ends
`Completed`, with the `Completed` broadcast last. -/
theorem completionAndCleanup_witness :
    (processVideo "https://youtu.be/dQw4w9WgXcQ" exampleProcEnv).2 = .success ∧
    (statusList (processVideo "https://youtu.be/dQw4w9WgXcQ" exampleProcEnv).1).getLast? =
      some Status.completed :=
  (completionAndCleanup "https://youtu.be/dQw4w9WgXcQ" exampleProcEnv "dQw4w9WgXcQ"
    (by decide) rfl rfl rfl rfl).2.2.1 rfl

end WebTranscriber
